import Mathlib

/-!
Shallow embedding of the inactivity-detection subsystem of the
SSE-GoHighLevel-MCP repository (file `inactivity-tools.ts`, present in the
sources in two variants: a logging variant and a plain variant whose
algorithmic content is checked against each other below).

Modelling conventions:
* Timestamps are embedded as `Int` instants (milliseconds); a JavaScript
  `Date` parsed from an ISO string becomes the corresponding instant, and
  an absent / empty-string timestamp field becomes `none`.
* Each collaborator call site is modelled by an oracle: the `k`-th
  `searchContacts` / `searchOpportunities` call of a run receives the
  `k`-th element of a response stream `Nat → ApiResult _`; the per-contact
  signal fetches receive the four responses recorded for that contact id.
* The `while (true)` pagination loops are embedded with an explicit fuel
  argument that is matched exactly at the recursion site, so the
  definitions compute by structural recursion.  For the contact paginator
  the source's own 50,000 safety cap bounds the loop by 501 fetches, and
  `contactPaginateGo_no_fuelOut` proves the fuel-exhaustion branch dead at
  the fuel used by the top-level entry point.  The opportunity loop of the
  source can genuinely diverge (an endless stream of empty pages carrying
  a next-page pointer never trips the count-based cap), so its fuel is a
  real parameter and exhaustion is reported as a distinguished outcome.
* JavaScript truthiness tests on optional strings / numbers are embedded
  by `strTruthy` / `intTruthy` (absent and `""` / `0` are falsy).
-/

/-- Result of one collaborator call: the client returns `success` with a
payload or `success: false` with an error message (the detectors turn the
latter into a thrown `Error` carrying that message). -/
inductive ApiResult (α : Type) where
  | success (data : α)
  | failure (msg : String)
  deriving Repr, DecidableEq

/-- A CRM contact as the detector sees it: only the identifier matters to
the algorithm (all other profile fields are carried opaquely through the
spread `{...contact}` and are irrelevant to classification). -/
structure GHLContact where
  id : Option String
  deriving Repr, DecidableEq

/-- One page of `searchContacts` results: the contact batch and the opaque
`searchAfter` cursor (a `[number, string]` pair in the source). -/
structure ContactPage where
  contacts : List GHLContact
  searchAfter : Option (Int × String)
  deriving Repr, DecidableEq

/-- A CRM opportunity: identifier plus the two optional change timestamps
the resolver consults. -/
structure GHLOpportunity where
  id : Option String
  lastStatusChangeAt : Option Int
  lastStageChangeAt : Option Int
  deriving Repr, DecidableEq

/-- Pagination metadata of a `searchOpportunities` response. -/
structure OppMeta where
  nextPageUrl : Option String
  nextPage : Option Int
  currentPage : Option Int
  startAfter : Option Int
  startAfterId : Option String
  deriving Repr, DecidableEq

/-- One page of `searchOpportunities` results; `meta` may be absent. -/
structure OppPage where
  opportunities : List GHLOpportunity
  meta : Option OppMeta
  deriving Repr, DecidableEq

/-- The four per-contact signal sources, in the order the resolver
consults them. -/
inductive Source where
  | conversations
  | appointments
  | notes
  | tasks
  deriving Repr, DecidableEq

/-- Responses of the four per-contact signal fetches for one contact.
Each successful response carries the list of the records' optional
timestamps (`dateAdded` for conversations and notes, `startTime` for
appointments, `dueDate` for tasks); a record whose timestamp field is
absent appears as `none`. -/
structure ContactActivityEnv where
  conversations : ApiResult (List (Option Int))
  appointments : ApiResult (List (Option Int))
  notes : ApiResult (List (Option Int))
  tasks : ApiResult (List (Option Int))

/-- JavaScript truthiness of an optional string: absent and `""` are
falsy. -/
def strTruthy : Option String → Bool
  | none => false
  | some s => !(s == "")

/-- JavaScript truthiness of an optional number: absent and `0` are
falsy. -/
def intTruthy : Option Int → Bool
  | none => false
  | some n => !(n == 0)

/-- Milliseconds per day. -/
def msPerDay : Int := 86400000

/-- The threshold date computed by both detectors:
`startDate.setDate(endDate.getDate() - inactivityDays)`, i.e. `now` minus
`inactivityDays` days. -/
def startDateOf (now : Int) (inactivityDays : Nat) : Int :=
  now - (inactivityDays : Int) * msPerDay

/-- The running-maximum update both resolvers use:
`if (!last || t > last) last = t`. -/
def updMax (m : Option Int) (t : Int) : Option Int :=
  match m with
  | none => some t
  | some u => if u < t then some t else some u

/-- One signal-source scan loop of `checkContactActivity`: for every
record with a timestamp, flag recent activity when the timestamp is on or
after `startDate` and update the running maximum; records without a
timestamp contribute nothing. -/
def scanSignals (startDate : Int) : List (Option Int) → Bool × Option Int → Bool × Option Int
  | [], st => st
  | none :: rest, st => scanSignals startDate rest st
  | some t :: rest, (recent, m) =>
      scanSignals startDate rest ((recent || decide (startDate ≤ t)), updMax m t)

/-- Processing of one signal-source response: a successful response is
scanned, a failed one (`success: false` or missing data) leaves the state
unchanged. -/
def applySource (startDate : Int) (resp : ApiResult (List (Option Int))) (st : Bool × Option Int) :
    Bool × Option Int :=
  match resp with
  | .success l => scanSignals startDate l st
  | .failure _ => st

/-- Result of `checkContactActivity`, instrumented with the list of
signal sources the resolver actually fetched (each fetch in the source is
one client call; the instrumentation records the calls made). -/
structure ContactCheck where
  inactive : Bool
  lastActivityDate : Option Int
  fetched : List Source
  deriving Repr, DecidableEq

/-- `checkContactActivity` (logging variant, lines 343-438): consult
conversations, then — only while no recent activity has been found —
appointments, notes and tasks, returning `inactive = !hasRecentActivity`
and the running maximum timestamp. -/
def checkContactActivity (env : ContactActivityEnv) (startDate : Int) : ContactCheck :=
  let st1 := applySource startDate env.conversations (false, none)
  if st1.1 then ⟨!st1.1, st1.2, [Source.conversations]⟩
  else
    let st2 := applySource startDate env.appointments st1
    if st2.1 then ⟨!st2.1, st2.2, [Source.conversations, Source.appointments]⟩
    else
      let st3 := applySource startDate env.notes st2
      if st3.1 then ⟨!st3.1, st3.2, [Source.conversations, Source.appointments, Source.notes]⟩
      else
        let st4 := applySource startDate env.tasks st3
        ⟨!st4.1, st4.2, [Source.conversations, Source.appointments, Source.notes, Source.tasks]⟩

/-- `checkContactActivity` (plain variant, lines 720-810 of the second
embedded copy); its body is compared with the logging variant in the
refinement claim. -/
def checkContactActivityPlain (env : ContactActivityEnv) (startDate : Int) : ContactCheck :=
  let st1 := applySource startDate env.conversations (false, none)
  if st1.1 then ⟨!st1.1, st1.2, [Source.conversations]⟩
  else
    let st2 := applySource startDate env.appointments st1
    if st2.1 then ⟨!st2.1, st2.2, [Source.conversations, Source.appointments]⟩
    else
      let st3 := applySource startDate env.notes st2
      if st3.1 then ⟨!st3.1, st3.2, [Source.conversations, Source.appointments, Source.notes]⟩
      else
        let st4 := applySource startDate env.tasks st3
        ⟨!st4.1, st4.2, [Source.conversations, Source.appointments, Source.notes, Source.tasks]⟩

/-- Outcome of a pagination loop: normal exit (`done`, covering both the
exhaustion break and the safety-cap break), a page-fetch failure
(`failed`, the thrown error caught by the detector's outer handler), or
fuel exhaustion (`fuelOut`, the embedding's marker for a loop that would
keep iterating). -/
inductive PagerOutcome where
  | done
  | failed (msg : String)
  | fuelOut
  deriving Repr, DecidableEq

/-- State returned by the contact pagination loop. -/
structure ContactPagerOut where
  contacts : List GHLContact
  errors : List String
  pagesFetched : Nat
  outcome : PagerOutcome
  deriving Repr, DecidableEq

/-- The contact pagination loop (lines 112-147): fetch a page, append its
batch, stop when the batch is short of 100 or no cursor was supplied,
record the safety advisory and stop when more than 50,000 contacts have
accumulated, otherwise continue with the response's cursor.  `page`
counts fetches performed so far; `fuel` bounds the remaining iterations
and is shown never to run out at the top-level entry point. -/
def contactPaginateGo (env : Nat → ApiResult ContactPage) (fuel page : Nat)
    (acc : List GHLContact) (errs : List String) : ContactPagerOut :=
  match env page with
  | .failure msg => ⟨acc, errs, page + 1, .failed msg⟩
  | .success pg =>
    let acc2 := acc ++ pg.contacts
    if pg.contacts.length < 100 || !pg.searchAfter.isSome then
      ⟨acc2, errs, page + 1, .done⟩
    else if 50000 < acc2.length then
      ⟨acc2, errs ++ ["Too many contacts, stopping at 50000"], page + 1, .done⟩
    else
      match fuel with
      | 0 => ⟨acc2, errs, page + 1, .fuelOut⟩
      | fuel' + 1 => contactPaginateGo env fuel' (page + 1) acc2 errs

/-- Top-level contact pagination: the 50,000 cap bounds the loop by 501
fetches, so fuel 501 is sufficient (`contactPaginate_no_fuelOut`). -/
def contactPaginate (env : Nat → ApiResult ContactPage) : ContactPagerOut :=
  contactPaginateGo env 501 0 [] []

/-- Plain-variant copy of the contact pagination loop (lines 539-567). -/
def contactPaginateGoPlain (env : Nat → ApiResult ContactPage) (fuel page : Nat)
    (acc : List GHLContact) (errs : List String) : ContactPagerOut :=
  match env page with
  | .failure msg => ⟨acc, errs, page + 1, .failed msg⟩
  | .success pg =>
    let acc2 := acc ++ pg.contacts
    if pg.contacts.length < 100 || !pg.searchAfter.isSome then
      ⟨acc2, errs, page + 1, .done⟩
    else if 50000 < acc2.length then
      ⟨acc2, errs ++ ["Too many contacts, stopping at 50000"], page + 1, .done⟩
    else
      match fuel with
      | 0 => ⟨acc2, errs, page + 1, .fuelOut⟩
      | fuel' + 1 => contactPaginateGoPlain env fuel' (page + 1) acc2 errs

/-- Plain-variant top-level contact pagination. -/
def contactPaginatePlain (env : Nat → ApiResult ContactPage) : ContactPagerOut :=
  contactPaginateGoPlain env 501 0 [] []

/-- A decorated inactive-contact report entry:
`{...contact, daysInactive, lastActivityDate}`. -/
structure GHLInactiveContact where
  contact : GHLContact
  daysInactive : Nat
  lastActivityDate : Option Int
  deriving Repr, DecidableEq

/-- Accumulated state of the per-contact checking loop. -/
structure ContactLoopOut where
  inactiveContacts : List GHLInactiveContact
  checked : Nat
  errors : List String
  deriving Repr, DecidableEq

/-- The per-contact checking loop (lines 152-177), parametrised by the
awaited resolution call, which may reject (`Except.error`): contacts with
a falsy id are skipped without being counted; a resolution error is
recorded as `Error checking contact <id>: <message>` and iteration
continues; an inactive verdict appends the decorated entry. -/
def contactCheckLoop (resolve : String → Except String ContactCheck) (inactivityDays : Nat) :
    List GHLContact → ContactLoopOut
  | [] => ⟨[], 0, []⟩
  | c :: rest =>
    match c.id with
    | none => contactCheckLoop resolve inactivityDays rest
    | some cid =>
      if cid = "" then contactCheckLoop resolve inactivityDays rest
      else
        let r := contactCheckLoop resolve inactivityDays rest
        match resolve cid with
        | .ok chk =>
          if chk.inactive then
            ⟨⟨c, inactivityDays, chk.lastActivityDate⟩ :: r.inactiveContacts, r.checked + 1, r.errors⟩
          else ⟨r.inactiveContacts, r.checked + 1, r.errors⟩
        | .error msg =>
          ⟨r.inactiveContacts, r.checked + 1,
            ("Error checking contact " ++ cid ++ ": " ++ msg) :: r.errors⟩

/-- Plain-variant copy of the checking loop (lines 570-589). -/
def contactCheckLoopPlain (resolve : String → Except String ContactCheck) (inactivityDays : Nat) :
    List GHLContact → ContactLoopOut
  | [] => ⟨[], 0, []⟩
  | c :: rest =>
    match c.id with
    | none => contactCheckLoopPlain resolve inactivityDays rest
    | some cid =>
      if cid = "" then contactCheckLoopPlain resolve inactivityDays rest
      else
        let r := contactCheckLoopPlain resolve inactivityDays rest
        match resolve cid with
        | .ok chk =>
          if chk.inactive then
            ⟨⟨c, inactivityDays, chk.lastActivityDate⟩ :: r.inactiveContacts, r.checked + 1, r.errors⟩
          else ⟨r.inactiveContacts, r.checked + 1, r.errors⟩
        | .error msg =>
          ⟨r.inactiveContacts, r.checked + 1,
            ("Error checking contact " ++ cid ++ ": " ++ msg) :: r.errors⟩

/-- The report returned by `detectContactsInactivity`. -/
structure GHLDetectContactsInactivityResponse where
  inactiveContacts : List GHLInactiveContact
  totalContactsChecked : Nat
  inactiveCount : Nat
  errors : List String
  inactivityThresholdDays : Nat
  deriving Repr, DecidableEq

/-- The collaborator responses one contact-detector run consumes: the
stream of `searchContacts` responses and, per contact id, the four signal
responses. -/
structure ContactsEnv where
  pages : Nat → ApiResult ContactPage
  activity : String → ContactActivityEnv

/-- `detectContactsInactivity` (logging variant, lines 88-194): paginate
all contacts; if a page fetch failed, the thrown error is caught by the
outer handler, which records `Error fetching contacts: <msg>` and skips
the checking loop entirely; otherwise check every accumulated contact and
assemble the report.  The `fuelOut` outcome is unreachable
(`contactPaginate_no_fuelOut`) and is routed like a normal exit. -/
def detectContactsInactivity (env : ContactsEnv) (inactivityDays : Nat) (now : Int) :
    GHLDetectContactsInactivityResponse :=
  let startDate := startDateOf now inactivityDays
  let pr := contactPaginate env.pages
  match pr.outcome with
  | .failed msg =>
    ⟨[], 0, 0, pr.errors ++ ["Error fetching contacts: " ++ msg], inactivityDays⟩
  | _ =>
    let r := contactCheckLoop
      (fun cid => .ok (checkContactActivity (env.activity cid) startDate))
      inactivityDays pr.contacts
    ⟨r.inactiveContacts, r.checked, r.inactiveContacts.length, pr.errors ++ r.errors,
      inactivityDays⟩

/-- `detectContactsInactivity` (plain variant, lines 522-601). -/
def detectContactsInactivityPlain (env : ContactsEnv) (inactivityDays : Nat) (now : Int) :
    GHLDetectContactsInactivityResponse :=
  let startDate := startDateOf now inactivityDays
  let pr := contactPaginatePlain env.pages
  match pr.outcome with
  | .failed msg =>
    ⟨[], 0, 0, pr.errors ++ ["Error fetching contacts: " ++ msg], inactivityDays⟩
  | _ =>
    let r := contactCheckLoopPlain
      (fun cid => .ok (checkContactActivityPlain (env.activity cid) startDate))
      inactivityDays pr.contacts
    ⟨r.inactiveContacts, r.checked, r.inactiveContacts.length, pr.errors ++ r.errors,
      inactivityDays⟩

/-- State returned by the opportunity pagination loop. -/
structure OppPagerOut where
  opportunities : List GHLOpportunity
  errors : List String
  pagesFetched : Nat
  outcome : PagerOutcome
  deriving Repr, DecidableEq

/-- Continuation test of the logging-variant opportunity paginator
(lines 250-253): only a truthy `meta.nextPageUrl` signals more pages. -/
def oppHasMorePages (meta : Option OppMeta) : Bool :=
  strTruthy (meta.bind (fun m => m.nextPageUrl))

/-- Continuation test of the plain-variant opportunity paginator
(line 646): a truthy `meta.nextPageUrl`, or truthy numeric `nextPage` and
`currentPage` hints with `nextPage > currentPage`. -/
def oppHasMorePagesPlain (meta : Option OppMeta) : Bool :=
  strTruthy (meta.bind (fun m => m.nextPageUrl)) ||
    (intTruthy (meta.bind (fun m => m.nextPage)) &&
      intTruthy (meta.bind (fun m => m.currentPage)) &&
      decide ((meta.bind (fun m => m.nextPage)).getD 0 >
        (meta.bind (fun m => m.currentPage)).getD 0))

/-- The logging-variant opportunity pagination loop (lines 224-269):
fetch a page, append its batch, stop unless the metadata carries a truthy
`nextPageUrl`, record the safety advisory and stop when more than 10,000
opportunities have accumulated, otherwise continue.  A batch may be empty
and the loop still continue, so the source loop can diverge; fuel
exhaustion is reported as `fuelOut`. -/
def oppPaginateGo (env : Nat → ApiResult OppPage) (fuel page : Nat)
    (acc : List GHLOpportunity) (errs : List String) : OppPagerOut :=
  match env page with
  | .failure msg => ⟨acc, errs, page + 1, .failed msg⟩
  | .success pg =>
    let acc2 := acc ++ pg.opportunities
    if !oppHasMorePages pg.meta then
      ⟨acc2, errs, page + 1, .done⟩
    else if 10000 < acc2.length then
      ⟨acc2, errs ++ ["Too many opportunities, stopping at 10000"], page + 1, .done⟩
    else
      match fuel with
      | 0 => ⟨acc2, errs, page + 1, .fuelOut⟩
      | fuel' + 1 => oppPaginateGo env fuel' (page + 1) acc2 errs

/-- Top-level logging-variant opportunity pagination with explicit fuel. -/
def oppPaginate (env : Nat → ApiResult OppPage) (fuel : Nat) : OppPagerOut :=
  oppPaginateGo env fuel 0 [] []

/-- The plain-variant opportunity pagination loop (lines 624-659); it
differs from the logging variant only in its continuation test. -/
def oppPaginateGoPlain (env : Nat → ApiResult OppPage) (fuel page : Nat)
    (acc : List GHLOpportunity) (errs : List String) : OppPagerOut :=
  match env page with
  | .failure msg => ⟨acc, errs, page + 1, .failed msg⟩
  | .success pg =>
    let acc2 := acc ++ pg.opportunities
    if !oppHasMorePagesPlain pg.meta then
      ⟨acc2, errs, page + 1, .done⟩
    else if 10000 < acc2.length then
      ⟨acc2, errs ++ ["Too many opportunities, stopping at 10000"], page + 1, .done⟩
    else
      match fuel with
      | 0 => ⟨acc2, errs, page + 1, .fuelOut⟩
      | fuel' + 1 => oppPaginateGoPlain env fuel' (page + 1) acc2 errs

/-- Top-level plain-variant opportunity pagination with explicit fuel. -/
def oppPaginatePlain (env : Nat → ApiResult OppPage) (fuel : Nat) : OppPagerOut :=
  oppPaginateGoPlain env fuel 0 [] []

/-- The per-opportunity activity resolution (lines 280-299): start from
no activity date, fold in `lastStatusChangeAt` and then
`lastStageChangeAt` with the strict-greater running-maximum update,
skipping absent fields. -/
def oppLastActivity (o : GHLOpportunity) : Option Int :=
  let m0 : Option Int := none
  let m1 := match o.lastStatusChangeAt with
    | some t => updMax m0 t
    | none => m0
  match o.lastStageChangeAt with
  | some t => updMax m1 t
  | none => m1

/-- The per-opportunity inactivity test (line 302):
`!lastActivityDate || lastActivityDate < startDate`. -/
def oppInactive (o : GHLOpportunity) (startDate : Int) : Bool :=
  match oppLastActivity o with
  | none => true
  | some t => decide (t < startDate)

/-- A decorated inactive-opportunity report entry. -/
structure GHLInactiveOpportunity where
  opportunity : GHLOpportunity
  daysInactive : Nat
  lastActivityDate : Option Int
  deriving Repr, DecidableEq

/-- Accumulated state of the per-opportunity checking loop. -/
structure OppLoopOut where
  inactiveOpportunities : List GHLInactiveOpportunity
  checked : Nat
  errors : List String
  deriving Repr, DecidableEq

/-- The per-opportunity checking loop (lines 274-321): opportunities with
a falsy id are skipped without being counted; the in-line resolution body
is total, so the surrounding per-item `try`/`catch` never fires in the
model and the loop produces no error strings. -/
def oppCheckLoop (startDate : Int) (inactivityDays : Nat) :
    List GHLOpportunity → OppLoopOut
  | [] => ⟨[], 0, []⟩
  | o :: rest =>
    match o.id with
    | none => oppCheckLoop startDate inactivityDays rest
    | some oid =>
      if oid = "" then oppCheckLoop startDate inactivityDays rest
      else
        let r := oppCheckLoop startDate inactivityDays rest
        if oppInactive o startDate then
          ⟨⟨o, inactivityDays, oppLastActivity o⟩ :: r.inactiveOpportunities, r.checked + 1,
            r.errors⟩
        else ⟨r.inactiveOpportunities, r.checked + 1, r.errors⟩

/-- The report returned by `detectOpportunitiesInactivity`. -/
structure GHLDetectOpportunitiesInactivityResponse where
  inactiveOpportunities : List GHLInactiveOpportunity
  totalOpportunitiesChecked : Nat
  inactiveCount : Nat
  errors : List String
  inactivityThresholdDays : Nat
  deriving Repr, DecidableEq

/-- `detectOpportunitiesInactivity` (logging variant, lines 199-338):
paginate all opportunities; a page-fetch failure is caught by the outer
handler, which records `Error fetching opportunities: <msg>` and skips
the checking loop; otherwise check every accumulated opportunity.  A run
whose pagination exhausts its fuel corresponds to a diverging source
loop and is reported as `none`. -/
def detectOpportunitiesInactivity (env : Nat → ApiResult OppPage) (fuel : Nat)
    (inactivityDays : Nat) (now : Int) : Option GHLDetectOpportunitiesInactivityResponse :=
  let startDate := startDateOf now inactivityDays
  let pr := oppPaginate env fuel
  match pr.outcome with
  | .fuelOut => none
  | .failed msg =>
    some ⟨[], 0, 0, pr.errors ++ ["Error fetching opportunities: " ++ msg], inactivityDays⟩
  | .done =>
    let r := oppCheckLoop startDate inactivityDays pr.opportunities
    some ⟨r.inactiveOpportunities, r.checked, r.inactiveOpportunities.length,
      pr.errors ++ r.errors, inactivityDays⟩


/-- Contact truthiness predicate used by the checking loop's skip test
and by counting lemmas. -/
def contactIdTruthy (c : GHLContact) : Bool := strTruthy c.id

/-- A signal record flags recent activity iff it carries a timestamp on
or after the threshold date. -/
def sigRecent (startDate : Int) : Option Int → Bool
  | some t => decide (startDate ≤ t)
  | none => false

/-- A contact that the checking loop will both count and resolve without
rejection: a truthy id on which the resolver returns `ok`. -/
def resolvesOk (resolve : String → Except String ContactCheck) (c : GHLContact) : Bool :=
  match c.id with
  | some cid => !(cid == "") &&
      (match resolve cid with
        | .ok _ => true
        | .error _ => false)
  | none => false

/-! ### Branch equations for the contact pagination loop -/

/-- A page fetch that fails aborts the loop with the failure outcome. -/
theorem cgo_failure {env : Nat → ApiResult ContactPage} {page : Nat} {msg : String}
    (hp : env page = .failure msg) (fuel : Nat) (acc : List GHLContact) (errs : List String) :
    contactPaginateGo env fuel page acc errs = ⟨acc, errs, page + 1, .failed msg⟩ := by
  conv_lhs => unfold contactPaginateGo
  rw [hp]

/-- A short batch or a missing cursor terminates the loop normally. -/
theorem cgo_stop {env : Nat → ApiResult ContactPage} {page : Nat} {pg : ContactPage}
    (hp : env page = .success pg)
    (hstop : pg.contacts.length < 100 ∨ pg.searchAfter = none)
    (fuel : Nat) (acc : List GHLContact) (errs : List String) :
    contactPaginateGo env fuel page acc errs = ⟨acc ++ pg.contacts, errs, page + 1, .done⟩ := by
  conv_lhs => unfold contactPaginateGo
  rcases hstop with h | h
  · simp [hp, h]
  · simp [hp, h]

/-- Crossing the 50,000 cap stops the loop and records the advisory. -/
theorem cgo_cap {env : Nat → ApiResult ContactPage} {page : Nat} {pg : ContactPage}
    {acc : List GHLContact}
    (hp : env page = .success pg)
    (h1 : ¬(pg.contacts.length < 100 ∨ pg.searchAfter = none))
    (h2 : 50000 < acc.length + pg.contacts.length)
    (fuel : Nat) (errs : List String) :
    contactPaginateGo env fuel page acc errs =
      ⟨acc ++ pg.contacts, errs ++ ["Too many contacts, stopping at 50000"], page + 1, .done⟩ := by
  push_neg at h1
  obtain ⟨h1a, h1b⟩ := h1
  have hA : ¬pg.contacts.length < 100 := by omega
  have hB : pg.searchAfter.isSome = true := Option.isSome_iff_ne_none.mpr h1b
  conv_lhs => unfold contactPaginateGo
  simp [hp, hA, hB, h2]

/-- A full batch with a cursor, below the cap, continues with the next page. -/
theorem cgo_cont {env : Nat → ApiResult ContactPage} {page : Nat} {pg : ContactPage}
    {acc : List GHLContact}
    (hp : env page = .success pg)
    (h1 : ¬(pg.contacts.length < 100 ∨ pg.searchAfter = none))
    (h2 : ¬(50000 < acc.length + pg.contacts.length))
    (fuel : Nat) (errs : List String) :
    contactPaginateGo env (fuel + 1) page acc errs =
      contactPaginateGo env fuel (page + 1) (acc ++ pg.contacts) errs := by
  push_neg at h1
  obtain ⟨h1a, h1b⟩ := h1
  have hA : ¬pg.contacts.length < 100 := by omega
  have hB : pg.searchAfter.isSome = true := Option.isSome_iff_ne_none.mpr h1b
  conv_lhs => unfold contactPaginateGo
  simp [hp, hA, hB, h2]

/-- With no fuel left, a continuation demand surfaces as `fuelOut`. -/
theorem cgo_fuel0 {env : Nat → ApiResult ContactPage} {page : Nat} {pg : ContactPage}
    {acc : List GHLContact}
    (hp : env page = .success pg)
    (h1 : ¬(pg.contacts.length < 100 ∨ pg.searchAfter = none))
    (h2 : ¬(50000 < acc.length + pg.contacts.length))
    (errs : List String) :
    contactPaginateGo env 0 page acc errs = ⟨acc ++ pg.contacts, errs, page + 1, .fuelOut⟩ := by
  push_neg at h1
  obtain ⟨h1a, h1b⟩ := h1
  have hA : ¬pg.contacts.length < 100 := by omega
  have hB : pg.searchAfter.isSome = true := Option.isSome_iff_ne_none.mpr h1b
  conv_lhs => unfold contactPaginateGo
  simp [hp, hA, hB, h2]

/-- The 50,000 cap bounds the contact loop: with enough fuel relative to
the accumulated count, the fuel-exhaustion branch is unreachable. -/
theorem contactPaginateGo_no_fuelOut (env : Nat → ApiResult ContactPage) :
    ∀ (fuel page : Nat) (acc : List GHLContact) (errs : List String),
      50000 < acc.length + 100 * fuel →
      (contactPaginateGo env fuel page acc errs).outcome ≠ .fuelOut := by
  intro fuel
  induction fuel with
  | zero =>
    intro page acc errs h
    cases hp : env page with
    | failure msg => rw [cgo_failure hp]; simp
    | success pg =>
      by_cases h1 : pg.contacts.length < 100 ∨ pg.searchAfter = none
      · rw [cgo_stop hp h1]; simp
      · rw [cgo_cap hp h1 (by omega)]; simp
  | succ n ih =>
    intro page acc errs h
    cases hp : env page with
    | failure msg => rw [cgo_failure hp]; simp
    | success pg =>
      by_cases h1 : pg.contacts.length < 100 ∨ pg.searchAfter = none
      · rw [cgo_stop hp h1]; simp
      · by_cases h2 : 50000 < acc.length + pg.contacts.length
        · rw [cgo_cap hp h1 h2]; simp
        · rw [cgo_cont hp h1 h2]
          apply ih
          have h100 : 100 ≤ pg.contacts.length := by push_neg at h1; omega
          simp only [List.length_append]
          omega

/-- The top-level contact pagination never exhausts its fuel: the
source's `while (true)` loop always exits by one of its own breaks. -/
theorem contactPaginate_no_fuelOut (env : Nat → ApiResult ContactPage) :
    (contactPaginate env).outcome ≠ .fuelOut := by
  apply contactPaginateGo_no_fuelOut
  simp

/-- Every call of the contact loop performs at least one fetch. -/
theorem contactPaginateGo_pages_ge (env : Nat → ApiResult ContactPage) :
    ∀ (fuel page : Nat) (acc : List GHLContact) (errs : List String),
      page + 1 ≤ (contactPaginateGo env fuel page acc errs).pagesFetched := by
  intro fuel
  induction fuel with
  | zero =>
    intro page acc errs
    cases hp : env page with
    | failure msg => rw [cgo_failure hp]
    | success pg =>
      by_cases h1 : pg.contacts.length < 100 ∨ pg.searchAfter = none
      · rw [cgo_stop hp h1]
      · by_cases h2 : 50000 < acc.length + pg.contacts.length
        · rw [cgo_cap hp h1 h2]
        · rw [cgo_fuel0 hp h1 h2]
  | succ n ih =>
    intro page acc errs
    cases hp : env page with
    | failure msg => rw [cgo_failure hp]
    | success pg =>
      by_cases h1 : pg.contacts.length < 100 ∨ pg.searchAfter = none
      · rw [cgo_stop hp h1]
      · by_cases h2 : 50000 < acc.length + pg.contacts.length
        · rw [cgo_cap hp h1 h2]
        · rw [cgo_cont hp h1 h2]
          have := ih (page + 1) (acc ++ pg.contacts) errs
          omega

/-- A run whose pagination failed has produced no pagination advisories:
its error list is exactly the inherited one. -/
theorem contactPaginateGo_failed_errors (env : Nat → ApiResult ContactPage) :
    ∀ (fuel page : Nat) (acc : List GHLContact) (errs : List String) (msg : String),
      (contactPaginateGo env fuel page acc errs).outcome = .failed msg →
      (contactPaginateGo env fuel page acc errs).errors = errs := by
  intro fuel
  induction fuel with
  | zero =>
    intro page acc errs msg h
    cases hp : env page with
    | failure m => rw [cgo_failure hp]
    | success pg =>
      by_cases h1 : pg.contacts.length < 100 ∨ pg.searchAfter = none
      · rw [cgo_stop hp h1] at h ⊢
      · by_cases h2 : 50000 < acc.length + pg.contacts.length
        · rw [cgo_cap hp h1 h2] at h ⊢; simp at h
        · rw [cgo_fuel0 hp h1 h2] at h ⊢
  | succ n ih =>
    intro page acc errs msg h
    cases hp : env page with
    | failure m => rw [cgo_failure hp]
    | success pg =>
      by_cases h1 : pg.contacts.length < 100 ∨ pg.searchAfter = none
      · rw [cgo_stop hp h1] at h ⊢
      · by_cases h2 : 50000 < acc.length + pg.contacts.length
        · rw [cgo_cap hp h1 h2] at h ⊢; simp at h
        · rw [cgo_cont hp h1 h2] at h ⊢
          exact ih _ _ _ _ h


/-- Behaviour of the contact paginator on an endless stream of full
100-item pages with cursors: starting from `100 * m` accumulated contacts
(`m ≤ 500`) and enough fuel, the loop runs until the total first exceeds
50,000, i.e. to exactly 50,100 contacts after `501 - m` further fetches,
records the cap advisory, and exits normally. -/
theorem contactPaginateGo_full_stream (env : Nat → ApiResult ContactPage)
    (hFull : ∀ k, ∃ pg, env k = .success pg ∧ pg.contacts.length = 100 ∧
      pg.contacts.countP contactIdTruthy = 100 ∧ pg.searchAfter.isSome = true) :
    ∀ (fuel m page : Nat) (acc : List GHLContact) (errs : List String),
      acc.length = 100 * m → acc.countP contactIdTruthy = 100 * m →
      m ≤ 500 → 501 - m ≤ fuel →
      (contactPaginateGo env fuel page acc errs).contacts.length = 50100 ∧
      (contactPaginateGo env fuel page acc errs).contacts.countP contactIdTruthy = 50100 ∧
      (contactPaginateGo env fuel page acc errs).errors =
        errs ++ ["Too many contacts, stopping at 50000"] ∧
      (contactPaginateGo env fuel page acc errs).pagesFetched = page + (501 - m) ∧
      (contactPaginateGo env fuel page acc errs).outcome = .done := by
  intro fuel
  induction fuel with
  | zero =>
    intro m page acc errs hlen hcount hm hf
    omega
  | succ n ih =>
    intro m page acc errs hlen hcount hm hf
    obtain ⟨pg, hp, hl, hc, hs⟩ := hFull page
    have h1 : ¬(pg.contacts.length < 100 ∨ pg.searchAfter = none) := by
      push_neg
      exact ⟨by omega, Option.isSome_iff_ne_none.mp hs⟩
    by_cases hm500 : m = 500
    · subst hm500
      have h2 : 50000 < acc.length + pg.contacts.length := by omega
      rw [cgo_cap hp h1 h2]
      refine ⟨by simp [List.length_append]; omega, by simp [List.countP_append]; omega, rfl,
        by simp, rfl⟩
    · have h2 : ¬(50000 < acc.length + pg.contacts.length) := by omega
      rw [cgo_cont hp h1 h2]
      have hrec := ih (m + 1) (page + 1) (acc ++ pg.contacts) errs
        (by simp [List.length_append]; omega)
        (by simp [List.countP_append]; omega)
        (by omega) (by omega)
      obtain ⟨A, B, C, D, E⟩ := hrec
      exact ⟨A, B, C, by omega, E⟩

/-! ### Branch equations for the opportunity pagination loops -/

/-- Failing opportunity page fetch (logging variant). -/
theorem ogo_failure {env : Nat → ApiResult OppPage} {page : Nat} {msg : String}
    (hp : env page = .failure msg) (fuel : Nat) (acc : List GHLOpportunity)
    (errs : List String) :
    oppPaginateGo env fuel page acc errs = ⟨acc, errs, page + 1, .failed msg⟩ := by
  conv_lhs => unfold oppPaginateGo
  rw [hp]

/-- No truthy `nextPageUrl`: the logging-variant loop stops. -/
theorem ogo_stop {env : Nat → ApiResult OppPage} {page : Nat} {pg : OppPage}
    (hp : env page = .success pg) (hstop : oppHasMorePages pg.meta = false)
    (fuel : Nat) (acc : List GHLOpportunity) (errs : List String) :
    oppPaginateGo env fuel page acc errs = ⟨acc ++ pg.opportunities, errs, page + 1, .done⟩ := by
  conv_lhs => unfold oppPaginateGo
  simp [hp, hstop]

/-- Crossing the 10,000 cap stops the logging-variant loop with the
advisory. -/
theorem ogo_cap {env : Nat → ApiResult OppPage} {page : Nat} {pg : OppPage}
    {acc : List GHLOpportunity}
    (hp : env page = .success pg) (hmore : oppHasMorePages pg.meta = true)
    (h2 : 10000 < acc.length + pg.opportunities.length)
    (fuel : Nat) (errs : List String) :
    oppPaginateGo env fuel page acc errs =
      ⟨acc ++ pg.opportunities, errs ++ ["Too many opportunities, stopping at 10000"],
        page + 1, .done⟩ := by
  conv_lhs => unfold oppPaginateGo
  simp [hp, hmore, h2]

/-- Truthy `nextPageUrl` below the cap: the logging-variant loop
continues. -/
theorem ogo_cont {env : Nat → ApiResult OppPage} {page : Nat} {pg : OppPage}
    {acc : List GHLOpportunity}
    (hp : env page = .success pg) (hmore : oppHasMorePages pg.meta = true)
    (h2 : ¬(10000 < acc.length + pg.opportunities.length))
    (fuel : Nat) (errs : List String) :
    oppPaginateGo env (fuel + 1) page acc errs =
      oppPaginateGo env fuel (page + 1) (acc ++ pg.opportunities) errs := by
  conv_lhs => unfold oppPaginateGo
  simp [hp, hmore, h2]

/-- Fuel exhaustion at a continuation demand (logging variant). -/
theorem ogo_fuel0 {env : Nat → ApiResult OppPage} {page : Nat} {pg : OppPage}
    {acc : List GHLOpportunity}
    (hp : env page = .success pg) (hmore : oppHasMorePages pg.meta = true)
    (h2 : ¬(10000 < acc.length + pg.opportunities.length))
    (errs : List String) :
    oppPaginateGo env 0 page acc errs =
      ⟨acc ++ pg.opportunities, errs, page + 1, .fuelOut⟩ := by
  conv_lhs => unfold oppPaginateGo
  simp [hp, hmore, h2]

/-- Failing opportunity page fetch (plain variant). -/
theorem pogo_failure {env : Nat → ApiResult OppPage} {page : Nat} {msg : String}
    (hp : env page = .failure msg) (fuel : Nat) (acc : List GHLOpportunity)
    (errs : List String) :
    oppPaginateGoPlain env fuel page acc errs = ⟨acc, errs, page + 1, .failed msg⟩ := by
  conv_lhs => unfold oppPaginateGoPlain
  rw [hp]

/-- Plain-variant stop: neither a truthy `nextPageUrl` nor a usable
numeric next-page hint. -/
theorem pogo_stop {env : Nat → ApiResult OppPage} {page : Nat} {pg : OppPage}
    (hp : env page = .success pg) (hstop : oppHasMorePagesPlain pg.meta = false)
    (fuel : Nat) (acc : List GHLOpportunity) (errs : List String) :
    oppPaginateGoPlain env fuel page acc errs =
      ⟨acc ++ pg.opportunities, errs, page + 1, .done⟩ := by
  conv_lhs => unfold oppPaginateGoPlain
  simp [hp, hstop]

/-- Plain-variant continuation below the cap. -/
theorem pogo_cont {env : Nat → ApiResult OppPage} {page : Nat} {pg : OppPage}
    {acc : List GHLOpportunity}
    (hp : env page = .success pg) (hmore : oppHasMorePagesPlain pg.meta = true)
    (h2 : ¬(10000 < acc.length + pg.opportunities.length))
    (fuel : Nat) (errs : List String) :
    oppPaginateGoPlain env (fuel + 1) page acc errs =
      oppPaginateGoPlain env fuel (page + 1) (acc ++ pg.opportunities) errs := by
  conv_lhs => unfold oppPaginateGoPlain
  simp [hp, hmore, h2]

/-- Every call of the logging-variant opportunity loop performs at least
one fetch. -/
theorem oppPaginateGo_pages_ge (env : Nat → ApiResult OppPage) :
    ∀ (fuel page : Nat) (acc : List GHLOpportunity) (errs : List String),
      page + 1 ≤ (oppPaginateGo env fuel page acc errs).pagesFetched := by
  intro fuel
  induction fuel with
  | zero =>
    intro page acc errs
    cases hp : env page with
    | failure msg => rw [ogo_failure hp]
    | success pg =>
      cases hmore : oppHasMorePages pg.meta with
      | false => rw [ogo_stop hp hmore]
      | true =>
        by_cases h2 : 10000 < acc.length + pg.opportunities.length
        · rw [ogo_cap hp hmore h2]
        · rw [ogo_fuel0 hp hmore h2]
  | succ n ih =>
    intro page acc errs
    cases hp : env page with
    | failure msg => rw [ogo_failure hp]
    | success pg =>
      cases hmore : oppHasMorePages pg.meta with
      | false => rw [ogo_stop hp hmore]
      | true =>
        by_cases h2 : 10000 < acc.length + pg.opportunities.length
        · rw [ogo_cap hp hmore h2]
        · rw [ogo_cont hp hmore h2]
          have := ih (page + 1) (acc ++ pg.opportunities) errs
          omega

/-- Every call of the plain-variant opportunity loop performs at least
one fetch. -/
theorem oppPaginateGoPlain_pages_ge (env : Nat → ApiResult OppPage) :
    ∀ (fuel page : Nat) (acc : List GHLOpportunity) (errs : List String),
      page + 1 ≤ (oppPaginateGoPlain env fuel page acc errs).pagesFetched := by
  intro fuel
  induction fuel with
  | zero =>
    intro page acc errs
    conv_rhs => unfold oppPaginateGoPlain
    cases hp : env page with
    | failure msg => simp [hp]
    | success pg =>
      by_cases hmore : oppHasMorePagesPlain pg.meta
      · by_cases h2 : 10000 < acc.length + pg.opportunities.length
        · simp [hp, hmore, h2]
        · simp [hp, hmore, h2]
      · simp [hp, hmore]
  | succ n ih =>
    intro page acc errs
    conv_rhs => unfold oppPaginateGoPlain
    cases hp : env page with
    | failure msg => simp [hp]
    | success pg =>
      by_cases hmore : oppHasMorePagesPlain pg.meta
      · by_cases h2 : 10000 < acc.length + pg.opportunities.length
        · simp [hp, hmore, h2]
        · simp only [hp]
          simp [hmore, h2]
          have := ih (page + 1) (acc ++ pg.opportunities) errs
          omega
      · simp [hp, hmore]

/-- A failed opportunity pagination run (logging variant) carries exactly
the inherited error list. -/
theorem oppPaginateGo_failed_errors (env : Nat → ApiResult OppPage) :
    ∀ (fuel page : Nat) (acc : List GHLOpportunity) (errs : List String) (msg : String),
      (oppPaginateGo env fuel page acc errs).outcome = .failed msg →
      (oppPaginateGo env fuel page acc errs).errors = errs := by
  intro fuel
  induction fuel with
  | zero =>
    intro page acc errs msg h
    cases hp : env page with
    | failure m => rw [ogo_failure hp]
    | success pg =>
      cases hmore : oppHasMorePages pg.meta with
      | false => rw [ogo_stop hp hmore] at h ⊢
      | true =>
        by_cases h2 : 10000 < acc.length + pg.opportunities.length
        · rw [ogo_cap hp hmore h2] at h ⊢; simp at h
        · rw [ogo_fuel0 hp hmore h2] at h ⊢
  | succ n ih =>
    intro page acc errs msg h
    cases hp : env page with
    | failure m => rw [ogo_failure hp]
    | success pg =>
      cases hmore : oppHasMorePages pg.meta with
      | false => rw [ogo_stop hp hmore] at h ⊢
      | true =>
        by_cases h2 : 10000 < acc.length + pg.opportunities.length
        · rw [ogo_cap hp hmore h2] at h ⊢; simp at h
        · rw [ogo_cont hp hmore h2] at h ⊢
          exact ih _ _ _ _ h

/-- Behaviour of the logging-variant opportunity paginator on an endless
stream of full 100-item pages whose metadata carries a truthy
`nextPageUrl`: the loop runs until the total first exceeds 10,000, i.e.
to exactly 10,100 opportunities, records the cap advisory, and exits
normally. -/
theorem oppPaginateGo_full_stream (env : Nat → ApiResult OppPage)
    (hFull : ∀ k, ∃ pg, env k = .success pg ∧ pg.opportunities.length = 100 ∧
      oppHasMorePages pg.meta = true) :
    ∀ (fuel m page : Nat) (acc : List GHLOpportunity) (errs : List String),
      acc.length = 100 * m → m ≤ 100 → 101 - m ≤ fuel →
      (oppPaginateGo env fuel page acc errs).opportunities.length = 10100 ∧
      (oppPaginateGo env fuel page acc errs).errors =
        errs ++ ["Too many opportunities, stopping at 10000"] ∧
      (oppPaginateGo env fuel page acc errs).pagesFetched = page + (101 - m) ∧
      (oppPaginateGo env fuel page acc errs).outcome = .done := by
  intro fuel
  induction fuel with
  | zero =>
    intro m page acc errs hlen hm hf
    omega
  | succ n ih =>
    intro m page acc errs hlen hm hf
    obtain ⟨pg, hp, hl, hmore⟩ := hFull page
    by_cases hm100 : m = 100
    · subst hm100
      have h2 : 10000 < acc.length + pg.opportunities.length := by omega
      rw [ogo_cap hp hmore h2]
      refine ⟨by simp [List.length_append]; omega, rfl, by simp, rfl⟩
    · have h2 : ¬(10000 < acc.length + pg.opportunities.length) := by omega
      rw [ogo_cont hp hmore h2]
      have hrec := ih (m + 1) (page + 1) (acc ++ pg.opportunities) errs
        (by simp [List.length_append]; omega) (by omega) (by omega)
      obtain ⟨A, C, D, E⟩ := hrec
      exact ⟨A, C, by omega, E⟩

/-! ### Signal-scan lemmas -/


/-- Unfolding of `sigRecent` on a present timestamp. -/
theorem sigRecent_true_iff (startDate : Int) (o : Option Int) :
    sigRecent startDate o = true ↔ ∃ t, o = some t ∧ startDate ≤ t := by
  cases o <;> simp [sigRecent]

/-- The recent-activity flag after one scan is the incoming flag or-ed
with per-record recency. -/
theorem scanSignals_fst (startDate : Int) :
    ∀ (l : List (Option Int)) (st : Bool × Option Int),
      (scanSignals startDate l st).1 = (st.1 || l.any (sigRecent startDate)) := by
  intro l
  induction l with
  | nil => intro st; simp [scanSignals]
  | cons o rest ih =>
    intro st
    obtain ⟨r, m⟩ := st
    cases o with
    | none => simp [scanSignals, ih, sigRecent]
    | some t => simp [scanSignals, ih, sigRecent, Bool.or_assoc]

/-- The running maximum after a scan is absent iff it was absent before
and the scanned list has no timestamps. -/
theorem scanSignals_snd_none_iff (startDate : Int) :
    ∀ (l : List (Option Int)) (st : Bool × Option Int),
      (scanSignals startDate l st).2 = none ↔ (st.2 = none ∧ l.filterMap id = []) := by
  intro l
  induction l with
  | nil => intro st; simp [scanSignals]
  | cons o rest ih =>
    intro st
    obtain ⟨r, m⟩ := st
    cases o with
    | none => simp [scanSignals, ih]
    | some t =>
      simp only [scanSignals, ih]
      simp [updMax]
      intro h
      cases m with
      | none => simp at h
      | some u => simp at h; split at h <;> simp_all

/-- The running maximum after a scan is `t` iff `t` is one of the
incoming maximum or the scanned timestamps, and bounds all of them. -/
theorem scanSignals_snd_some_iff (startDate : Int) :
    ∀ (l : List (Option Int)) (st : Bool × Option Int) (t : Int),
      (scanSignals startDate l st).2 = some t ↔
        ((st.2 = some t ∨ t ∈ l.filterMap id) ∧ (∀ u, st.2 = some u → u ≤ t) ∧
          (∀ u ∈ l.filterMap id, u ≤ t)) := by
  intro l
  induction l with
  | nil =>
    intro st t
    simp only [scanSignals, List.filterMap_nil, List.not_mem_nil, or_false]
    constructor
    · intro h
      exact ⟨h, fun u hu => by rw [h] at hu; cases hu; exact le_refl t, by simp⟩
    · rintro ⟨h, _, _⟩
      exact h
  | cons o rest ih =>
    intro st t
    obtain ⟨r, m⟩ := st
    cases o with
    | none => simp [scanSignals, ih]
    | some v =>
      have step : scanSignals startDate (some v :: rest) (r, m) =
          scanSignals startDate rest ((r || decide (startDate ≤ v)), updMax m v) := rfl
      rw [step, ih]
      simp only [List.filterMap_cons, id_eq, List.mem_cons]
      cases m with
      | none =>
        simp only [updMax]
        constructor
        · rintro ⟨h1, h2, h3⟩
          have hv : v ≤ t := h2 v rfl
          rcases h1 with h1 | h1
          · cases h1
            exact ⟨Or.inr (Or.inl rfl), by simp, fun u hu => by
              rcases hu with hu | hu
              · omega
              · exact h3 u hu⟩
          · exact ⟨Or.inr (Or.inr h1), by simp, fun u hu => by
              rcases hu with hu | hu
              · omega
              · exact h3 u hu⟩
        · rintro ⟨h1, _, h3⟩
          have hv : v ≤ t := h3 v (Or.inl rfl)
          rcases h1 with h1 | h1
          · simp at h1
          · rcases h1 with h1 | h1
            · exact ⟨Or.inl (by rw [h1]), fun u hu => by cases hu; omega, fun u hu =>
                h3 u (Or.inr hu)⟩
            · exact ⟨Or.inr h1, fun u hu => by cases hu; omega, fun u hu => h3 u (Or.inr hu)⟩
      | some u0 =>
        by_cases hlt : u0 < v
        · simp only [updMax, if_pos hlt]
          constructor
          · rintro ⟨h1, h2, h3⟩
            have hv : v ≤ t := h2 v rfl
            rcases h1 with h1 | h1
            · cases h1
              exact ⟨Or.inr (Or.inl rfl), fun u hu => by cases hu; omega, fun u hu => by
                rcases hu with hu | hu
                · omega
                · exact h3 u hu⟩
            · exact ⟨Or.inr (Or.inr h1), fun u hu => by cases hu; omega, fun u hu => by
                rcases hu with hu | hu
                · omega
                · exact h3 u hu⟩
          · rintro ⟨h1, h2, h3⟩
            have hu0 : u0 ≤ t := h2 u0 rfl
            have hv : v ≤ t := h3 v (Or.inl rfl)
            rcases h1 with h1 | h1
            · cases h1
              exact ⟨Or.inl (by congr 1; omega), fun u hu => by cases hu; omega,
                fun u hu => h3 u (Or.inr hu)⟩
            · rcases h1 with h1 | h1
              · exact ⟨Or.inl (by rw [h1]), fun u hu => by cases hu; omega,
                  fun u hu => h3 u (Or.inr hu)⟩
              · exact ⟨Or.inr h1, fun u hu => by cases hu; omega,
                  fun u hu => h3 u (Or.inr hu)⟩
        · simp only [updMax, if_neg hlt]
          constructor
          · rintro ⟨h1, h2, h3⟩
            have hu0 : u0 ≤ t := h2 u0 rfl
            rcases h1 with h1 | h1
            · cases h1
              exact ⟨Or.inl rfl, fun u hu => by cases hu; omega, fun u hu => by
                rcases hu with hu | hu
                · omega
                · exact h3 u hu⟩
            · exact ⟨Or.inr (Or.inr h1), fun u hu => by cases hu; omega, fun u hu => by
                rcases hu with hu | hu
                · omega
                · exact h3 u hu⟩
          · rintro ⟨h1, h2, h3⟩
            have hu0 : u0 ≤ t := h2 u0 rfl
            have hv : v ≤ t := h3 v (Or.inl rfl)
            rcases h1 with h1 | h1
            · cases h1
              exact ⟨Or.inl rfl, fun u hu => by cases hu; omega,
                fun u hu => h3 u (Or.inr hu)⟩
            · rcases h1 with h1 | h1
              · exact ⟨Or.inl (by congr 1; omega), fun u hu => by cases hu; omega,
                  fun u hu => h3 u (Or.inr hu)⟩
              · exact ⟨Or.inr h1, fun u hu => by cases hu; omega,
                  fun u hu => h3 u (Or.inr hu)⟩

/-- Scanning records that all lack timestamps leaves the state untouched. -/
theorem scanSignals_all_none (startDate : Int) :
    ∀ (l : List (Option Int)) (st : Bool × Option Int),
      (∀ o ∈ l, o = none) → scanSignals startDate l st = st := by
  intro l
  induction l with
  | nil => intro st _; rfl
  | cons o rest ih =>
    intro st h
    obtain ⟨r, m⟩ := st
    have ho : o = none := h o (by simp)
    subst ho
    exact ih (r, m) (fun o ho => h o (by simp [ho]))

/-- A list has a record flagged recent iff one of its present timestamps
is on or after the threshold date. -/
theorem any_sigRecent_iff (startDate : Int) (l : List (Option Int)) :
    l.any (sigRecent startDate) = true ↔ ∃ t ∈ l.filterMap id, startDate ≤ t := by
  simp only [List.any_eq_true, sigRecent_true_iff, List.mem_filterMap, id_eq]
  constructor
  · rintro ⟨o, ho, t, rfl, hle⟩
    exact ⟨t, ⟨some t, ho, rfl⟩, hle⟩
  · rintro ⟨t, ⟨o, ho, rfl⟩, hle⟩
    exact ⟨some t, ho, t, rfl, hle⟩

/-! ### Contact activity-resolver lemmas -/

/-- With all four signal fetches succeeding, the resolver classifies a
contact active iff some signal across the four sources (in consultation
order) is flagged recent. -/
theorem checkContactActivity_inactive_iff (env : ContactActivityEnv) (startDate : Int)
    (convs appts notes tasks : List (Option Int))
    (hc : env.conversations = .success convs) (ha : env.appointments = .success appts)
    (hn : env.notes = .success notes) (ht : env.tasks = .success tasks) :
    ((checkContactActivity env startDate).inactive = false ↔
      (convs ++ appts ++ notes ++ tasks).any (sigRecent startDate) = true) := by
  simp only [checkContactActivity, applySource, hc, ha, hn, ht, List.any_append]
  by_cases hb1 : convs.any (sigRecent startDate) = true
  · have h1 : (scanSignals startDate convs (false, none)).1 = true := by
      rw [scanSignals_fst]; simp [hb1]
    simp [h1, hb1]
  · have h1 : (scanSignals startDate convs (false, none)).1 = false := by
      rw [scanSignals_fst]; simpa using hb1
    by_cases hb2 : appts.any (sigRecent startDate) = true
    · have h2 : (scanSignals startDate appts (scanSignals startDate convs (false, none))).1
          = true := by
        rw [scanSignals_fst]; simp [h1, hb2]
      simp [h1, h2, hb2]
    · have h2 : (scanSignals startDate appts (scanSignals startDate convs (false, none))).1
          = false := by
        rw [scanSignals_fst]; simp [h1]; simpa using hb2
      by_cases hb3 : notes.any (sigRecent startDate) = true
      · have h3 : (scanSignals startDate notes
            (scanSignals startDate appts (scanSignals startDate convs (false, none)))).1
            = true := by
          rw [scanSignals_fst]; simp [h2, hb3]
        simp [h1, h2, h3, hb3]
      · have h3 : (scanSignals startDate notes
            (scanSignals startDate appts (scanSignals startDate convs (false, none)))).1
            = false := by
          rw [scanSignals_fst]; simp [h2]; simpa using hb3
        have h4 : (scanSignals startDate tasks (scanSignals startDate notes
            (scanSignals startDate appts (scanSignals startDate convs (false, none))))).1
            = tasks.any (sigRecent startDate) := by
          rw [scanSignals_fst]; simp [h3]
        simp [h1, h2, h3, h4, hb1, hb2, hb3]

/-! ### Checking-loop lemmas -/

/-- The checked total is exactly the number of fetched contacts with a
truthy id, whatever the resolver does. -/
theorem contactCheckLoop_checked (resolve : String → Except String ContactCheck)
    (inactivityDays : Nat) :
    ∀ l : List GHLContact,
      (contactCheckLoop resolve inactivityDays l).checked = l.countP contactIdTruthy := by
  intro l
  induction l with
  | nil => simp [contactCheckLoop]
  | cons c rest ih =>
    cases hid : c.id with
    | none =>
      simp [contactCheckLoop, hid, List.countP_cons, contactIdTruthy, strTruthy, ih]
    | some cid =>
      by_cases he : cid = ""
      · subst he
        simp [contactCheckLoop, hid, List.countP_cons, contactIdTruthy, strTruthy, ih]
      · have htr : contactIdTruthy c = true := by simp [contactIdTruthy, strTruthy, hid, he]
        cases hr : resolve cid with
        | ok chk =>
          by_cases hin : chk.inactive
          · simp [contactCheckLoop, hid, he, hr, hin, List.countP_cons, htr, ih]
          · simp [contactCheckLoop, hid, he, hr, hin, List.countP_cons, htr, ih]
        | error msg =>
          simp [contactCheckLoop, hid, he, hr, List.countP_cons, htr, ih]

/-- The checking loop distributes over list concatenation componentwise. -/
theorem contactCheckLoop_append (resolve : String → Except String ContactCheck)
    (inactivityDays : Nat) :
    ∀ l1 l2 : List GHLContact,
      contactCheckLoop resolve inactivityDays (l1 ++ l2) =
        ⟨(contactCheckLoop resolve inactivityDays l1).inactiveContacts ++
            (contactCheckLoop resolve inactivityDays l2).inactiveContacts,
          (contactCheckLoop resolve inactivityDays l1).checked +
            (contactCheckLoop resolve inactivityDays l2).checked,
          (contactCheckLoop resolve inactivityDays l1).errors ++
            (contactCheckLoop resolve inactivityDays l2).errors⟩ := by
  intro l1 l2
  induction l1 with
  | nil => simp [contactCheckLoop]
  | cons c rest ih =>
    cases hid : c.id with
    | none => simp [contactCheckLoop, hid, ih]
    | some cid =>
      by_cases he : cid = ""
      · subst he
        simp [contactCheckLoop, hid, ih]
      · cases hr : resolve cid with
        | ok chk =>
          by_cases hin : chk.inactive
          · simp [contactCheckLoop, hid, he, hr, hin, ih]
            omega
          · simp [contactCheckLoop, hid, he, hr, hin, ih]
            omega
        | error msg =>
          simp [contactCheckLoop, hid, he, hr, ih]
          omega

/-- A stretch of contacts whose ids all resolve without rejection
produces no error strings. -/
theorem contactCheckLoop_errors_nil (resolve : String → Except String ContactCheck)
    (inactivityDays : Nat) :
    ∀ l : List GHLContact,
      (∀ c ∈ l, ∀ cid, c.id = some cid → cid ≠ "" → ∃ chk, resolve cid = .ok chk) →
      (contactCheckLoop resolve inactivityDays l).errors = [] := by
  intro l
  induction l with
  | nil => intro _; simp [contactCheckLoop]
  | cons c rest ih =>
    intro h
    have hrest := ih (fun c hc => h c (by simp [hc]))
    cases hid : c.id with
    | none => simp [contactCheckLoop, hid, hrest]
    | some cid =>
      by_cases he : cid = ""
      · subst he
        simp [contactCheckLoop, hid, hrest]
      · obtain ⟨chk, hchk⟩ := h c (by simp) cid hid he
        by_cases hin : chk.inactive
        · simp [contactCheckLoop, hid, he, hchk, hin, hrest]
        · simp [contactCheckLoop, hid, he, hchk, hin, hrest]

/-! ### Equivalence of the two embedded contact-detector variants -/

/-- The two copies of the contact activity resolver have identical
bodies. -/
theorem checkContactActivityPlain_eq (env : ContactActivityEnv) (startDate : Int) :
    checkContactActivityPlain env startDate = checkContactActivity env startDate := rfl

/-- The two copies of the contact pagination loop agree on every input. -/
theorem contactPaginateGoPlain_eq (env : Nat → ApiResult ContactPage) :
    ∀ (fuel page : Nat) (acc : List GHLContact) (errs : List String),
      contactPaginateGoPlain env fuel page acc errs = contactPaginateGo env fuel page acc errs := by
  intro fuel
  induction fuel with
  | zero =>
    intro page acc errs
    conv_lhs => unfold contactPaginateGoPlain
    conv_rhs => unfold contactPaginateGo
  | succ n ih =>
    intro page acc errs
    conv_lhs => unfold contactPaginateGoPlain
    conv_rhs => unfold contactPaginateGo
    cases hp : env page with
    | failure msg => simp [hp]
    | success pg => simp [hp, ih]

/-- The two copies of the per-contact checking loop agree on every
input. -/
theorem contactCheckLoopPlain_eq (resolve : String → Except String ContactCheck)
    (inactivityDays : Nat) :
    ∀ l : List GHLContact,
      contactCheckLoopPlain resolve inactivityDays l =
        contactCheckLoop resolve inactivityDays l := by
  intro l
  induction l with
  | nil => rfl
  | cons c rest ih =>
    cases hid : c.id with
    | none => simp [contactCheckLoopPlain, contactCheckLoop, hid, ih]
    | some cid =>
      by_cases he : cid = ""
      · subst he
        simp [contactCheckLoopPlain, contactCheckLoop, hid, ih]
      · cases hr : resolve cid with
        | ok chk =>
          simp [contactCheckLoopPlain, contactCheckLoop, hid, he, hr, ih]
        | error msg =>
          simp [contactCheckLoopPlain, contactCheckLoop, hid, he, hr, ih]

/-! ### Claim theorems -/

/-- Claim C7: for every opportunity, the resolved last-activity date is
the maximum of the `lastStatusChangeAt` and `lastStageChangeAt` fields
that are present (either may be absent); the opportunity is inactive iff
that maximum is absent or strictly earlier than the threshold date; and
when both fields are absent the opportunity is reported inactive with no
last-activity date in its report entry. -/
theorem claim_C7_opportunity_resolution :
    ∀ (o : GHLOpportunity) (startDate : Int),
      (oppLastActivity o =
        match o.lastStatusChangeAt, o.lastStageChangeAt with
        | none, none => none
        | some a, none => some a
        | none, some b => some b
        | some a, some b => some (max a b)) ∧
      (oppInactive o startDate = true ↔
        (oppLastActivity o = none ∨ ∃ t, oppLastActivity o = some t ∧ t < startDate)) ∧
      (∀ inactivityDays : Nat, o.lastStatusChangeAt = none → o.lastStageChangeAt = none →
        strTruthy o.id = true →
        oppCheckLoop startDate inactivityDays [o] = ⟨[⟨o, inactivityDays, none⟩], 1, []⟩) := by
  intro o sd
  refine ⟨?_, ?_, ?_⟩
  · cases hs : o.lastStatusChangeAt with
    | none =>
      cases hg : o.lastStageChangeAt with
      | none => simp [oppLastActivity, hs, hg]
      | some b => simp [oppLastActivity, hs, hg, updMax]
    | some a =>
      cases hg : o.lastStageChangeAt with
      | none => simp [oppLastActivity, hs, hg, updMax]
      | some b =>
        simp only [oppLastActivity, hs, hg, updMax]
        rcases lt_or_ge a b with h | h
        · rw [if_pos h, max_eq_right h.le]
        · rw [if_neg (not_lt.mpr h), max_eq_left h]
  · cases hl : oppLastActivity o with
    | none => simp [oppInactive, hl]
    | some t => simp [oppInactive, hl]
  · intro d h1 h2 hid
    have hnone : oppLastActivity o = none := by simp [oppLastActivity, h1, h2]
    have hin : oppInactive o sd = true := by simp [oppInactive, hnone]
    cases ho : o.id with
    | none => simp [strTruthy, ho] at hid
    | some oid =>
      have hne : ¬oid = "" := by
        intro hcon
        rw [ho, hcon] at hid
        simp [strTruthy] at hid
      simp [oppCheckLoop, ho, hne, hin, hnone]

/-- Witness for claim C7: a concrete opportunity with both change fields
absent is reported inactive with no last-activity date. -/
theorem claim_C7_opportunity_resolution_witness :
    oppCheckLoop 0 30 [⟨some "o1", none, none⟩] = ⟨[⟨⟨some "o1", none, none⟩, 30, none⟩], 1, []⟩ :=
  (claim_C7_opportunity_resolution ⟨some "o1", none, none⟩ 0).2.2 30 rfl rfl (by decide)

/-- Claim C8: a task without a due date contributes no activity signal:
a contact whose four signal sources yield no conversations, appointments
or notes and only due-date-less tasks is classified inactive with no
last-activity date (all four sources having been consulted). -/
theorem claim_C8_undated_tasks_no_signal :
    ∀ (tasks : List (Option Int)) (startDate : Int),
      tasks ≠ [] → (∀ o ∈ tasks, o = none) →
      checkContactActivity ⟨.success [], .success [], .success [], .success tasks⟩ startDate =
        ⟨true, none,
          [Source.conversations, Source.appointments, Source.notes, Source.tasks]⟩ := by
  intro tasks sd _ h
  have hscan := scanSignals_all_none sd tasks (false, none) h
  simp [checkContactActivity, applySource, scanSignals, hscan]

/-- Witness for claim C8: one concrete undated task yields the inactive,
date-less verdict. -/
theorem claim_C8_undated_tasks_no_signal_witness :
    checkContactActivity ⟨.success [], .success [], .success [], .success [none]⟩ 0 =
      ⟨true, none, [Source.conversations, Source.appointments, Source.notes, Source.tasks]⟩ :=
  claim_C8_undated_tasks_no_signal [none] 0 (by decide) (by simp)

/-- Counterexample to claim C2 as stated: with threshold 30 days, a
contact whose single (and hence latest) conversation signal is exactly 30
days old — its timestamp equals the computed threshold date — is
classified ACTIVE (`inactive = false`), because the source tests
`convDate >= startDate`; the claim demands it be inactive. -/
theorem claim_C2_counterexample :
    (checkContactActivity
      ⟨.success [some (0 - 30 * msPerDay)], .success [], .success [], .success []⟩
      (startDateOf 0 30)).inactive = false ∧
    (0 : Int) - 30 * msPerDay = startDateOf 0 30 := by
  constructor
  · decide
  · decide

/-- Claim C2 (amended): for a contact with at least one timestamped
signal across the four sources (all four fetches succeeding) whose
latest signal is `L`, the contact is active iff `L` is on or after the
threshold date `now − thresholdDays` days.  Consequently a latest signal
exactly `thresholdDays − 1` days old is classified active, a latest
signal exactly `thresholdDays` days old is ALSO classified active (the
boundary comparison is inclusive, contrary to the original claim), and
the contact is classified inactive iff the latest signal is strictly
older than `thresholdDays` days. -/
theorem claim_C2_threshold_boundary :
    ∀ (env : ContactActivityEnv) (now : Int) (d : Nat)
      (convs appts notes tasks : List (Option Int)) (L : Int),
      env.conversations = .success convs → env.appointments = .success appts →
      env.notes = .success notes → env.tasks = .success tasks →
      1 ≤ d →
      L ∈ (convs ++ appts ++ notes ++ tasks).filterMap id →
      (∀ u ∈ (convs ++ appts ++ notes ++ tasks).filterMap id, u ≤ L) →
      ((checkContactActivity env (startDateOf now d)).inactive = false ↔
        startDateOf now d ≤ L) ∧
      (L = now - ((d : Int) - 1) * msPerDay →
        (checkContactActivity env (startDateOf now d)).inactive = false) ∧
      (L = now - (d : Int) * msPerDay →
        (checkContactActivity env (startDateOf now d)).inactive = false) ∧
      (L < now - (d : Int) * msPerDay →
        (checkContactActivity env (startDateOf now d)).inactive = true) := by
  intro env now d convs appts notes tasks L hc ha hn ht hd hmem hmax
  have hiff : ((checkContactActivity env (startDateOf now d)).inactive = false ↔
      startDateOf now d ≤ L) := by
    rw [checkContactActivity_inactive_iff env (startDateOf now d) convs appts notes tasks
      hc ha hn ht, any_sigRecent_iff]
    constructor
    · rintro ⟨t, htmem, hle⟩
      exact le_trans hle (hmax t htmem)
    · intro hle
      exact ⟨L, hmem, hle⟩
  refine ⟨hiff, ?_, ?_, ?_⟩
  · intro hL
    rw [hiff, hL]
    simp only [startDateOf, msPerDay]
    omega
  · intro hL
    rw [hiff, hL]
    simp only [startDateOf, msPerDay]
    omega
  · intro hL
    rcases Bool.eq_false_or_eq_true (checkContactActivity env (startDateOf now d)).inactive
      with hb | hb
    · exact hb
    · exfalso
      have := hiff.mp hb
      simp only [startDateOf, msPerDay] at this hL
      omega

/-- Witness for the amended claim C2: with threshold 30 days and a single
conversation exactly 29 days old, the contact is classified active. -/
theorem claim_C2_threshold_boundary_witness :
    (checkContactActivity
      ⟨.success [some (0 - 29 * msPerDay)], .success [], .success [], .success []⟩
      (startDateOf 0 30)).inactive = false :=
  (claim_C2_threshold_boundary
    ⟨.success [some (0 - 29 * msPerDay)], .success [], .success [], .success []⟩
    0 30 [some (0 - 29 * msPerDay)] [] [] [] (0 - 29 * msPerDay)
    rfl rfl rfl rfl (by decide) (by simp) (by simp)).2.1 (by norm_num [msPerDay])

/-- Claim C6: once a contact's conversation signals contain a timestamp
on or after the threshold date, the resolver fetches none of
appointments, notes or tasks, returns `inactive = false` whatever those
later sources would have held, and still reports the maximum timestamp
among the (conversation) signals it did consult. -/
theorem claim_C6_short_circuit :
    ∀ (env : ContactActivityEnv) (startDate : Int) (convs : List (Option Int)),
      env.conversations = .success convs →
      (∃ t ∈ convs.filterMap id, startDate ≤ t) →
      (checkContactActivity env startDate).fetched = [Source.conversations] ∧
      (checkContactActivity env startDate).inactive = false ∧
      (∀ env' : ContactActivityEnv, env'.conversations = .success convs →
        checkContactActivity env' startDate = checkContactActivity env startDate) ∧
      (∀ t : Int, (checkContactActivity env startDate).lastActivityDate = some t ↔
        (t ∈ convs.filterMap id ∧ ∀ u ∈ convs.filterMap id, u ≤ t)) := by
  intro env sd convs hc hrec
  have hany : convs.any (sigRecent sd) = true := (any_sigRecent_iff sd convs).mpr hrec
  have h1 : (scanSignals sd convs (false, none)).1 = true := by
    rw [scanSignals_fst]; simp [hany]
  refine ⟨?_, ?_, ?_, ?_⟩
  · simp [checkContactActivity, applySource, hc, h1]
  · simp [checkContactActivity, applySource, hc, h1]
  · intro env' hc'
    simp [checkContactActivity, applySource, hc, hc', h1]
  · intro t
    have hval : (checkContactActivity env sd).lastActivityDate =
        (scanSignals sd convs (false, none)).2 := by
      simp [checkContactActivity, applySource, hc, h1]
    rw [hval, scanSignals_snd_some_iff]
    simp

/-- Witness for claim C6: a contact with a conversation on the threshold
date and a later appointment response that would be recent consults only
conversations and is active either way. -/
theorem claim_C6_short_circuit_witness :
    (checkContactActivity
      ⟨.success [some 7, some 3], .success [some 100], .failure "backend down",
        .success [none]⟩ 3).fetched = [Source.conversations] ∧
    (checkContactActivity
      ⟨.success [some 7, some 3], .success [some 100], .failure "backend down",
        .success [none]⟩ 3).inactive = false ∧
    (checkContactActivity
      ⟨.success [some 7, some 3], .success [some 100], .failure "backend down",
        .success [none]⟩ 3).lastActivityDate = some 7 := by
  have h := claim_C6_short_circuit
    ⟨.success [some 7, some 3], .success [some 100], .failure "backend down", .success [none]⟩
    3 [some 7, some 3] rfl ⟨7, by simp, by norm_num⟩
  exact ⟨h.1, h.2.1, (h.2.2.2 7).mpr (by simp)⟩

/-- Unpacking of the `resolvesOk` predicate. -/
theorem resolvesOk_parts {resolve : String → Except String ContactCheck} {c : GHLContact}
    (h : resolvesOk resolve c = true) :
    ∃ cid, c.id = some cid ∧ cid ≠ "" ∧ ∃ chk, resolve cid = .ok chk := by
  cases hid : c.id with
  | none => simp [resolvesOk, hid] at h
  | some cid =>
    simp only [resolvesOk, hid, Bool.and_eq_true, beq_iff_eq, Bool.not_eq_eq_eq_not,
      Bool.not_true] at h
    obtain ⟨h1, h2⟩ := h
    cases hr : resolve cid with
    | ok chk => exact ⟨cid, rfl, by simpa using h1, chk, hr⟩
    | error msg => rw [hr] at h2; simp at h2

/-- A contact accepted by `resolvesOk` has a truthy id. -/
theorem resolvesOk_truthy {resolve : String → Except String ContactCheck} {c : GHLContact}
    (h : resolvesOk resolve c = true) : contactIdTruthy c = true := by
  obtain ⟨cid, hid, hne, _⟩ := resolvesOk_parts h
  simp [contactIdTruthy, strTruthy, hid, hne]

/-- Claim C10: the logging and plain variants of the contact detector —
`detectContactsInactivity` together with its `checkContactActivity`
helper in each embedded copy — are extensionally equal: on every
collaborator-response environment and every threshold they produce
identical reports. -/
theorem claim_C10_contact_variants_equal :
    (∀ (env : ContactsEnv) (inactivityDays : Nat) (now : Int),
      detectContactsInactivityPlain env inactivityDays now =
        detectContactsInactivity env inactivityDays now) ∧
    (∀ (env : ContactActivityEnv) (startDate : Int),
      checkContactActivityPlain env startDate = checkContactActivity env startDate) := by
  constructor
  · intro env d now
    unfold detectContactsInactivityPlain detectContactsInactivity contactPaginatePlain
      contactPaginate
    rw [contactPaginateGoPlain_eq]
    cases ho : (contactPaginateGo env.pages 501 0 [] []).outcome with
    | failed msg => simp [ho]
    | done => simp [ho, contactCheckLoopPlain_eq, checkContactActivityPlain_eq]
    | fuelOut => simp [ho, contactCheckLoopPlain_eq, checkContactActivityPlain_eq]
  · intro env sd
    exact checkContactActivityPlain_eq env sd

/-- Claim C9: the checked total counts exactly the fetched contacts with
a truthy id (id-less entities are skipped and uncounted); and when one
contact's resolution rejects while every other contact resolves
successfully, exactly one error string naming that contact's id is
recorded, iteration continues over the remaining contacts, the rejecting
contact still counts toward the checked total, and the classified
entries are exactly those of the surrounding contacts. -/
theorem claim_C9_error_isolation :
    (∀ (resolve : String → Except String ContactCheck) (inactivityDays : Nat)
      (l : List GHLContact),
      (contactCheckLoop resolve inactivityDays l).checked = l.countP contactIdTruthy) ∧
    (∀ (resolve : String → Except String ContactCheck) (inactivityDays : Nat)
      (l1 l2 : List GHLContact) (c : GHLContact) (cid msg : String),
      c.id = some cid → cid ≠ "" → resolve cid = .error msg →
      (l1 ++ l2).all (resolvesOk resolve) = true →
      (contactCheckLoop resolve inactivityDays (l1 ++ c :: l2)).errors =
        ["Error checking contact " ++ cid ++ ": " ++ msg] ∧
      (contactCheckLoop resolve inactivityDays (l1 ++ c :: l2)).checked =
        l1.length + 1 + l2.length ∧
      (contactCheckLoop resolve inactivityDays (l1 ++ c :: l2)).inactiveContacts =
        (contactCheckLoop resolve inactivityDays l1).inactiveContacts ++
          (contactCheckLoop resolve inactivityDays l2).inactiveContacts) := by
  constructor
  · exact fun resolve d l => contactCheckLoop_checked resolve d l
  · intro resolve d l1 l2 c cid msg hid hne hr hall
    rw [List.all_append] at hall
    obtain ⟨hall1, hall2⟩ := Bool.and_eq_true_iff.mp hall
    have hok1 : ∀ x ∈ l1, ∀ xid, x.id = some xid → xid ≠ "" → ∃ chk, resolve xid = .ok chk := by
      intro x hx xid hxid _
      obtain ⟨cid0, hid0, _, chk, hchk⟩ :=
        resolvesOk_parts (List.all_eq_true.mp hall1 x hx)
      rw [hid0] at hxid
      cases hxid
      exact ⟨chk, hchk⟩
    have hok2 : ∀ x ∈ l2, ∀ xid, x.id = some xid → xid ≠ "" → ∃ chk, resolve xid = .ok chk := by
      intro x hx xid hxid _
      obtain ⟨cid0, hid0, _, chk, hchk⟩ :=
        resolvesOk_parts (List.all_eq_true.mp hall2 x hx)
      rw [hid0] at hxid
      cases hxid
      exact ⟨chk, hchk⟩
    have he1 : (contactCheckLoop resolve d l1).errors = [] :=
      contactCheckLoop_errors_nil resolve d l1 hok1
    have he2 : (contactCheckLoop resolve d l2).errors = [] :=
      contactCheckLoop_errors_nil resolve d l2 hok2
    have hstep : contactCheckLoop resolve d (c :: l2) =
        ⟨(contactCheckLoop resolve d l2).inactiveContacts,
          (contactCheckLoop resolve d l2).checked + 1,
          ("Error checking contact " ++ cid ++ ": " ++ msg) ::
            (contactCheckLoop resolve d l2).errors⟩ := by
      simp [contactCheckLoop, hid, hne, hr]
    have happ := contactCheckLoop_append resolve d l1 (c :: l2)
    have hc1 : (contactCheckLoop resolve d l1).checked = l1.length := by
      rw [contactCheckLoop_checked]
      exact List.countP_eq_length.mpr
        (fun x hx => resolvesOk_truthy (List.all_eq_true.mp hall1 x hx))
    have hc2 : (contactCheckLoop resolve d l2).checked = l2.length := by
      rw [contactCheckLoop_checked]
      exact List.countP_eq_length.mpr
        (fun x hx => resolvesOk_truthy (List.all_eq_true.mp hall2 x hx))
    refine ⟨?_, ?_, ?_⟩
    · rw [happ, hstep]
      simp [he1, he2]
    · rw [happ, hstep]
      simp only [hc1, hc2]
      omega
    · rw [happ, hstep]

/-- Witness for claim C9: 100 contacts, of which the 50th rejects during
resolution, yield exactly one error string naming it and a checked total
of 100. -/
theorem claim_C9_error_isolation_witness :
    (contactCheckLoop
      (fun cid => if cid = "bad" then .error "boom" else .ok ⟨true, none, []⟩) 30
      (List.replicate 49 ⟨some "good"⟩ ++ ⟨some "bad"⟩ :: List.replicate 50 ⟨some "good"⟩)).errors
      = ["Error checking contact bad: boom"] ∧
    (contactCheckLoop
      (fun cid => if cid = "bad" then .error "boom" else .ok ⟨true, none, []⟩) 30
      (List.replicate 49 ⟨some "good"⟩ ++ ⟨some "bad"⟩ :: List.replicate 50 ⟨some "good"⟩)).checked
      = 100 := by
  have h := claim_C9_error_isolation.2
    (fun cid => if cid = "bad" then .error "boom" else .ok ⟨true, none, []⟩) 30
    (List.replicate 49 ⟨some "good"⟩) (List.replicate 50 ⟨some "good"⟩)
    ⟨some "bad"⟩ "bad" "boom" rfl (by decide) rfl (by decide)
  refine ⟨h.1, ?_⟩
  rw [h.2.1]
  simp

/-- Plain-variant cap stop. -/
theorem pogo_cap {env : Nat → ApiResult OppPage} {page : Nat} {pg : OppPage}
    {acc : List GHLOpportunity}
    (hp : env page = .success pg) (hmore : oppHasMorePagesPlain pg.meta = true)
    (h2 : 10000 < acc.length + pg.opportunities.length)
    (fuel : Nat) (errs : List String) :
    oppPaginateGoPlain env fuel page acc errs =
      ⟨acc ++ pg.opportunities, errs ++ ["Too many opportunities, stopping at 10000"],
        page + 1, .done⟩ := by
  conv_lhs => unfold oppPaginateGoPlain
  simp [hp, hmore, h2]

/-- Plain-variant fuel exhaustion at a continuation demand. -/
theorem pogo_fuel0 {env : Nat → ApiResult OppPage} {page : Nat} {pg : OppPage}
    {acc : List GHLOpportunity}
    (hp : env page = .success pg) (hmore : oppHasMorePagesPlain pg.meta = true)
    (h2 : ¬(10000 < acc.length + pg.opportunities.length))
    (errs : List String) :
    oppPaginateGoPlain env 0 page acc errs =
      ⟨acc ++ pg.opportunities, errs, page + 1, .fuelOut⟩ := by
  conv_lhs => unfold oppPaginateGoPlain
  simp [hp, hmore, h2]

/-- Claim C1 (amended): when a page fetch fails, pagination aborts and
the failure is recorded as exactly one aggregate error string in a
structurally valid report — but the entities accumulated from the
earlier successful pages are NOT checked: the thrown error skips the
checking loop, so the report carries zero checked entities and no
classifications.  The first two parts cover the contact and opportunity
detectors; the third shows a failure on the second page (after a
successful full first page) is such a failed run. -/
theorem claim_C1_page_fetch_failure :
    (∀ (env : ContactsEnv) (inactivityDays : Nat) (now : Int) (msg : String),
      (contactPaginate env.pages).outcome = .failed msg →
      detectContactsInactivity env inactivityDays now =
        ⟨[], 0, 0, ["Error fetching contacts: " ++ msg], inactivityDays⟩) ∧
    (∀ (env : Nat → ApiResult OppPage) (fuel inactivityDays : Nat) (now : Int) (msg : String),
      (oppPaginate env fuel).outcome = .failed msg →
      detectOpportunitiesInactivity env fuel inactivityDays now =
        some ⟨[], 0, 0, ["Error fetching opportunities: " ++ msg], inactivityDays⟩) ∧
    (∀ (env : ContactsEnv) (pg : ContactPage) (msg : String),
      env.pages 0 = .success pg → 100 ≤ pg.contacts.length → pg.searchAfter.isSome = true →
      pg.contacts.length ≤ 50000 → env.pages 1 = .failure msg →
      (contactPaginate env.pages).outcome = .failed msg) := by
  refine ⟨?_, ?_, ?_⟩
  · intro env d now msg h
    have he : (contactPaginate env.pages).errors = [] :=
      contactPaginateGo_failed_errors env.pages 501 0 [] [] msg h
    simp [detectContactsInactivity, h, he]
  · intro env fuel d now msg h
    have he : (oppPaginate env fuel).errors = [] :=
      oppPaginateGo_failed_errors env fuel 0 [] [] msg h
    simp [detectOpportunitiesInactivity, h, he]
  · intro env pg msg hp0 hlen hsome hcap hp1
    have h1 : ¬(pg.contacts.length < 100 ∨ pg.searchAfter = none) := by
      push_neg
      exact ⟨by omega, Option.isSome_iff_ne_none.mp hsome⟩
    have h2 : ¬(50000 < ([] : List GHLContact).length + pg.contacts.length) := by
      simp
      omega
    unfold contactPaginate
    rw [show (501 : Nat) = 500 + 1 from rfl, cgo_cont hp0 h1 h2, cgo_failure hp1]

set_option maxRecDepth 10000 in
/-- Counterexample to claim C1 as stated: a run whose first page returns
100 id-bearing contacts with a cursor and whose second page fetch fails
reports `totalContactsChecked = 0` with no classifications — the 100
accumulated contacts are not checked, contradicting the claim that
accumulated entities are still counted and classified. -/
theorem claim_C1_counterexample :
    detectContactsInactivity
      ⟨fun k => if k = 0 then .success ⟨List.replicate 100 ⟨some "c"⟩, some (0, "cur")⟩
          else .failure "boom",
        fun _ => ⟨.failure "x", .failure "x", .failure "x", .failure "x"⟩⟩ 30 0 =
      ⟨[], 0, 0, ["Error fetching contacts: boom"], 30⟩ ∧
    (List.replicate (100 : Nat) (⟨some "c"⟩ : GHLContact)).countP contactIdTruthy = 100 := by
  constructor
  · decide
  · decide

/-- Witness for the amended claim C1: the same two-page environment is a
failed run, and its report is the empty-but-valid one with the single
aggregate error string. -/
theorem claim_C1_page_fetch_failure_witness :
    (contactPaginate
      (⟨fun k => if k = 0 then .success ⟨List.replicate 100 ⟨some "c"⟩, some (0, "cur")⟩
          else .failure "bust",
        fun _ => ⟨.failure "x", .failure "x", .failure "x", .failure "x"⟩⟩ :
        ContactsEnv).pages).outcome = .failed "bust" ∧
    detectContactsInactivity
      ⟨fun k => if k = 0 then .success ⟨List.replicate 100 ⟨some "c"⟩, some (0, "cur")⟩
          else .failure "bust",
        fun _ => ⟨.failure "x", .failure "x", .failure "x", .failure "x"⟩⟩ 45 0 =
      ⟨[], 0, 0, ["Error fetching contacts: bust"], 45⟩ := by
  have h3 := claim_C1_page_fetch_failure.2.2
    ⟨fun k => if k = 0 then .success ⟨List.replicate 100 ⟨some "c"⟩, some (0, "cur")⟩
        else .failure "bust",
      fun _ => ⟨.failure "x", .failure "x", .failure "x", .failure "x"⟩⟩
    ⟨List.replicate 100 ⟨some "c"⟩, some (0, "cur")⟩ "bust" rfl (by decide) (by decide)
    (by decide) rfl
  exact ⟨h3, claim_C1_page_fetch_failure.1 _ 45 0 "bust" h3⟩

/-- Unfolding of the contact detector on a normally terminated
pagination run. -/
theorem detectContactsInactivity_done (env : ContactsEnv) (inactivityDays : Nat) (now : Int)
    (h : (contactPaginate env.pages).outcome = .done) :
    detectContactsInactivity env inactivityDays now =
      ⟨(contactCheckLoop
          (fun cid => .ok (checkContactActivity (env.activity cid) (startDateOf now inactivityDays)))
          inactivityDays (contactPaginate env.pages).contacts).inactiveContacts,
        (contactCheckLoop
          (fun cid => .ok (checkContactActivity (env.activity cid) (startDateOf now inactivityDays)))
          inactivityDays (contactPaginate env.pages).contacts).checked,
        (contactCheckLoop
          (fun cid => .ok (checkContactActivity (env.activity cid) (startDateOf now inactivityDays)))
          inactivityDays (contactPaginate env.pages).contacts).inactiveContacts.length,
        (contactPaginate env.pages).errors ++
          (contactCheckLoop
            (fun cid => .ok (checkContactActivity (env.activity cid) (startDateOf now inactivityDays)))
            inactivityDays (contactPaginate env.pages).contacts).errors,
        inactivityDays⟩ := by
  simp [detectContactsInactivity, h]

/-- Claim C3 (amended): fed an endless stream of full 100-item pages
with cursors, the contact paginator halts only after the accumulated
total first EXCEEDS 50,000 — at exactly 50,100 contacts, not at most
50,000 — appends the advisory string, and the run still proceeds to
check the accumulated contacts (all 50,100 are counted as checked) and
produce a report whose error list is exactly the advisory.  The
opportunity paginator analogously halts at 10,100 with its 10,000-cap
advisory. -/
theorem claim_C3_safety_caps :
    (∀ (env : ContactsEnv) (inactivityDays : Nat) (now : Int),
      (∀ k, ∃ pg, env.pages k = .success pg ∧ pg.contacts.length = 100 ∧
        pg.contacts.countP contactIdTruthy = 100 ∧ pg.searchAfter.isSome = true) →
      (contactPaginate env.pages).contacts.length = 50100 ∧
      (contactPaginate env.pages).errors = ["Too many contacts, stopping at 50000"] ∧
      (contactPaginate env.pages).outcome = .done ∧
      (detectContactsInactivity env inactivityDays now).totalContactsChecked = 50100 ∧
      (detectContactsInactivity env inactivityDays now).errors =
        ["Too many contacts, stopping at 50000"]) ∧
    (∀ (env : Nat → ApiResult OppPage) (fuel : Nat),
      101 ≤ fuel →
      (∀ k, ∃ pg, env k = .success pg ∧ pg.opportunities.length = 100 ∧
        oppHasMorePages pg.meta = true) →
      (oppPaginate env fuel).opportunities.length = 10100 ∧
      (oppPaginate env fuel).errors = ["Too many opportunities, stopping at 10000"] ∧
      (oppPaginate env fuel).outcome = .done) := by
  constructor
  · intro env d now hFull
    obtain ⟨A, B, C, D, E⟩ := contactPaginateGo_full_stream env.pages hFull 501 0 0 [] []
      (by simp) (by simp) (by omega) (by omega)
    have hA : (contactPaginate env.pages).contacts.length = 50100 := A
    have hB : (contactPaginate env.pages).contacts.countP contactIdTruthy = 50100 := B
    have hC : (contactPaginate env.pages).errors = ["Too many contacts, stopping at 50000"] := by
      rw [show contactPaginate env.pages = contactPaginateGo env.pages 501 0 [] [] from rfl, C]
      simp
    have hE : (contactPaginate env.pages).outcome = .done := E
    have hloopE := contactCheckLoop_errors_nil
      (fun cid => .ok (checkContactActivity (env.activity cid) (startDateOf now d))) d
      (contactPaginate env.pages).contacts
      (fun c hc cid hcid hne => ⟨_, rfl⟩)
    have hloopC := contactCheckLoop_checked
      (fun cid => .ok (checkContactActivity (env.activity cid) (startDateOf now d))) d
      (contactPaginate env.pages).contacts
    refine ⟨hA, hC, hE, ?_, ?_⟩
    · rw [detectContactsInactivity_done env d now hE]
      simp only
      rw [hloopC, hB]
    · rw [detectContactsInactivity_done env d now hE]
      simp only
      rw [hloopE, hC]
      simp
  · intro env fuel hfuel hFull
    obtain ⟨A, C, D, E⟩ := oppPaginateGo_full_stream env hFull fuel 0 0 [] []
      (by simp) (by omega) (by omega)
    refine ⟨A, ?_, E⟩
    rw [show oppPaginate env fuel = oppPaginateGo env fuel 0 [] [] from rfl, C]
    simp

set_option maxRecDepth 10000 in
/-- Counterexample to claim C3 as stated: on the canonical endless
stream of full 100-item cursor-bearing pages, the contact paginator
accumulates 50,100 contacts — strictly more than the claimed bound of at
most 50,000 — while still appending the advisory string. -/
theorem claim_C3_counterexample :
    ¬((contactPaginate
        (fun _ => .success ⟨List.replicate 100 ⟨some "c"⟩, some (0, "cur")⟩)).contacts.length
      ≤ 50000) ∧
    (contactPaginate
      (fun _ => .success ⟨List.replicate 100 ⟨some "c"⟩, some (0, "cur")⟩)).errors =
      ["Too many contacts, stopping at 50000"] := by
  obtain ⟨A, B, C, D, E⟩ := contactPaginateGo_full_stream
    (fun _ => .success ⟨List.replicate 100 ⟨some "c"⟩, some (0, "cur")⟩)
    (fun k => ⟨⟨List.replicate 100 ⟨some "c"⟩, some (0, "cur")⟩, rfl, by decide, by decide, rfl⟩)
    501 0 0 [] [] (by simp) (by simp) (by omega) (by omega)
  constructor
  · intro hle
    rw [show contactPaginate (fun _ => .success ⟨List.replicate 100 ⟨some "c"⟩, some (0, "cur")⟩)
        = contactPaginateGo (fun _ => .success ⟨List.replicate 100 ⟨some "c"⟩, some (0, "cur")⟩)
          501 0 [] [] from rfl, A] at hle
    omega
  · rw [show contactPaginate (fun _ => .success ⟨List.replicate 100 ⟨some "c"⟩, some (0, "cur")⟩)
        = contactPaginateGo (fun _ => .success ⟨List.replicate 100 ⟨some "c"⟩, some (0, "cur")⟩)
          501 0 [] [] from rfl, C]
    simp

set_option maxRecDepth 10000 in
/-- Witness for the amended claim C3: the canonical endless full-page
environments instantiate both cap statements. -/
theorem claim_C3_safety_caps_witness :
    (detectContactsInactivity
      ⟨fun _ => .success ⟨List.replicate 100 ⟨some "c"⟩, some (0, "cur")⟩,
        fun _ => ⟨.failure "x", .failure "x", .failure "x", .failure "x"⟩⟩ 30 0).totalContactsChecked
      = 50100 ∧
    (oppPaginate
      (fun _ => .success ⟨List.replicate 100 ⟨some "o", none, none⟩,
        some ⟨some "url", none, none, none, none⟩⟩) 101).opportunities.length = 10100 := by
  constructor
  · exact (claim_C3_safety_caps.1
      ⟨fun _ => .success ⟨List.replicate 100 ⟨some "c"⟩, some (0, "cur")⟩,
        fun _ => ⟨.failure "x", .failure "x", .failure "x", .failure "x"⟩⟩ 30 0
      (fun k => ⟨⟨List.replicate 100 ⟨some "c"⟩, some (0, "cur")⟩, rfl, by decide, by decide,
        rfl⟩)).2.2.2.1
  · exact (claim_C3_safety_caps.2
      (fun _ => .success ⟨List.replicate 100 ⟨some "o", none, none⟩,
        some ⟨some "url", none, none, none, none⟩⟩) 101 (by omega)
      (fun k => ⟨⟨List.replicate 100 ⟨some "o", none, none⟩,
        some ⟨some "url", none, none, none, none⟩⟩, rfl, by decide, rfl⟩)).1

set_option maxRecDepth 10000 in
/-- Claim C5 (amended): the contact paginator fetches another page iff
the prior page returned at least the requested 100 items AND supplied a
next cursor AND the accumulated total including that page does not
exceed the 50,000 safety cap; fed pages of sizes [100, 100, 37] with a
cursor present only on the first two responses, it stops after exactly 3
page fetches having accumulated 237 contacts. -/
theorem claim_C5_contact_continuation :
    (∀ (env : Nat → ApiResult ContactPage) (fuel page : Nat) (acc : List GHLContact)
      (errs : List String) (pg : ContactPage),
      env page = .success pg →
      ((contactPaginateGo env (fuel + 1) page acc errs).pagesFetched > page + 1 ↔
        (100 ≤ pg.contacts.length ∧ pg.searchAfter.isSome = true ∧
          acc.length + pg.contacts.length ≤ 50000))) ∧
    ((contactPaginate
        (fun k => if k = 0 then .success ⟨List.replicate 100 ⟨some "c"⟩, some (0, "a")⟩
          else if k = 1 then .success ⟨List.replicate 100 ⟨some "c"⟩, some (1, "b")⟩
          else .success ⟨List.replicate 37 ⟨some "c"⟩, none⟩)).pagesFetched = 3 ∧
      (contactPaginate
        (fun k => if k = 0 then .success ⟨List.replicate 100 ⟨some "c"⟩, some (0, "a")⟩
          else if k = 1 then .success ⟨List.replicate 100 ⟨some "c"⟩, some (1, "b")⟩
          else .success ⟨List.replicate 37 ⟨some "c"⟩, none⟩)).contacts.length = 237 ∧
      (contactPaginate
        (fun k => if k = 0 then .success ⟨List.replicate 100 ⟨some "c"⟩, some (0, "a")⟩
          else if k = 1 then .success ⟨List.replicate 100 ⟨some "c"⟩, some (1, "b")⟩
          else .success ⟨List.replicate 37 ⟨some "c"⟩, none⟩)).outcome = .done) := by
  constructor
  · intro env fuel page acc errs pg hp
    constructor
    · intro hgt
      by_cases h1 : pg.contacts.length < 100 ∨ pg.searchAfter = none
      · rw [cgo_stop hp h1] at hgt
        simp at hgt
      · by_cases h2 : 50000 < acc.length + pg.contacts.length
        · rw [cgo_cap hp h1 h2] at hgt
          simp at hgt
        · push_neg at h1
          exact ⟨by omega, Option.isSome_iff_ne_none.mpr h1.2, by omega⟩
    · rintro ⟨hlen, hsome, hcap⟩
      have h1 : ¬(pg.contacts.length < 100 ∨ pg.searchAfter = none) := by
        push_neg
        exact ⟨by omega, Option.isSome_iff_ne_none.mp hsome⟩
      have h2 : ¬(50000 < acc.length + pg.contacts.length) := by omega
      rw [cgo_cont hp h1 h2]
      have := contactPaginateGo_pages_ge env fuel (page + 1) (acc ++ pg.contacts) errs
      omega
  · refine ⟨by decide, by decide, by decide⟩

/-- Counterexample to claim C5 as stated: on the endless full-page
stream, the 501st response (page index 500) returns a full 100 items
with a cursor, yet no further page is fetched — exactly 501 fetches are
made because the 50,000 cap halts the loop, refuting the unqualified
"if and only if". -/
theorem claim_C5_counterexample :
    (contactPaginate
      (fun _ => .success ⟨List.replicate 100 ⟨some "c"⟩, some (0, "cur")⟩)).pagesFetched = 501 ∧
    ((fun (_ : Nat) => (.success ⟨List.replicate 100 ⟨some "c"⟩, some (0, "cur")⟩ :
        ApiResult ContactPage)) 500 =
      .success ⟨List.replicate 100 ⟨some "c"⟩, some (0, "cur")⟩ ∧
      (List.replicate (100 : Nat) (⟨some "c"⟩ : GHLContact)).length = 100 ∧
      (some ((0 : Int), "cur")).isSome = true) := by
  refine ⟨?_, rfl, by simp, rfl⟩
  obtain ⟨A, B, C, D, E⟩ := contactPaginateGo_full_stream
    (fun _ => .success ⟨List.replicate 100 ⟨some "c"⟩, some (0, "cur")⟩)
    (fun k => ⟨⟨List.replicate 100 ⟨some "c"⟩, some (0, "cur")⟩, rfl, by simp, by simp [contactIdTruthy, strTruthy], rfl⟩)
    501 0 0 [] [] (by simp) (by simp) (by omega) (by omega)
  exact D

/-- Witness for the amended claim C5: the continuation test instantiated
at a response with an empty batch and no cursor — no further page is
fetched. -/
theorem claim_C5_contact_continuation_witness :
    ((contactPaginateGo (fun _ => .success ⟨[], none⟩) (0 + 1) 0 [] []).pagesFetched > 0 + 1 ↔
      (100 ≤ (⟨[], none⟩ : ContactPage).contacts.length ∧
        (⟨[], none⟩ : ContactPage).searchAfter.isSome = true ∧
        ([] : List GHLContact).length + (⟨[], none⟩ : ContactPage).contacts.length ≤ 50000)) :=
  claim_C5_contact_continuation.1 (fun _ => .success ⟨[], none⟩) 0 0 [] [] ⟨[], none⟩ rfl

/-- Claim C4 (amended): the logging-variant opportunity paginator
fetches a further page iff the previous response's metadata contains a
truthy `nextPageUrl` and the accumulated total does not exceed the
10,000 cap — numeric next-page hints never matter there; the plain
variant, however, ALSO continues when the numeric `nextPage` and
`currentPage` hints are truthy with `nextPage > currentPage`, so numeric
hints do cause continuation on their own in that variant. -/
theorem claim_C4_opportunity_continuation :
    (∀ (env : Nat → ApiResult OppPage) (fuel page : Nat) (acc : List GHLOpportunity)
      (errs : List String) (pg : OppPage),
      env page = .success pg →
      ((oppPaginateGo env (fuel + 1) page acc errs).pagesFetched > page + 1 ↔
        (oppHasMorePages pg.meta = true ∧ acc.length + pg.opportunities.length ≤ 10000))) ∧
    (∀ (env : Nat → ApiResult OppPage) (fuel page : Nat) (acc : List GHLOpportunity)
      (errs : List String) (pg : OppPage),
      env page = .success pg →
      ((oppPaginateGoPlain env (fuel + 1) page acc errs).pagesFetched > page + 1 ↔
        (oppHasMorePagesPlain pg.meta = true ∧ acc.length + pg.opportunities.length ≤ 10000))) ∧
    (∀ m : OppMeta, oppHasMorePages (some m) = strTruthy m.nextPageUrl) := by
  refine ⟨?_, ?_, ?_⟩
  · intro env fuel page acc errs pg hp
    constructor
    · intro hgt
      cases hmore : oppHasMorePages pg.meta with
      | false =>
        rw [ogo_stop hp hmore] at hgt
        simp at hgt
      | true =>
        by_cases h2 : 10000 < acc.length + pg.opportunities.length
        · rw [ogo_cap hp hmore h2] at hgt
          simp at hgt
        · exact ⟨rfl, by omega⟩
    · rintro ⟨hmore, hcap⟩
      have h2 : ¬(10000 < acc.length + pg.opportunities.length) := by omega
      rw [ogo_cont hp hmore h2]
      have := oppPaginateGo_pages_ge env fuel (page + 1) (acc ++ pg.opportunities) errs
      omega
  · intro env fuel page acc errs pg hp
    constructor
    · intro hgt
      cases hmore : oppHasMorePagesPlain pg.meta with
      | false =>
        rw [pogo_stop hp hmore] at hgt
        simp at hgt
      | true =>
        by_cases h2 : 10000 < acc.length + pg.opportunities.length
        · rw [pogo_cap hp hmore h2] at hgt
          simp at hgt
        · exact ⟨rfl, by omega⟩
    · rintro ⟨hmore, hcap⟩
      have h2 : ¬(10000 < acc.length + pg.opportunities.length) := by omega
      rw [pogo_cont hp hmore h2]
      have := oppPaginateGoPlain_pages_ge env fuel (page + 1) (acc ++ pg.opportunities) errs
      omega
  · intro m
    simp [oppHasMorePages]

/-- Counterexample to claim C4 as stated: on a response whose metadata
has NO `nextPageUrl` but numeric hints `nextPage = 2 > currentPage = 1`,
the plain-variant paginator fetches a second page (2 fetches) while the
logging variant stops after one — numeric hints alone do cause
continuation in the plain variant. -/
theorem claim_C4_counterexample :
    (oppPaginatePlain
      (fun k => if k = 0 then .success ⟨[], some ⟨none, some 2, some 1, none, none⟩⟩
        else .success ⟨[], none⟩) 5).pagesFetched = 2 ∧
    (oppPaginate
      (fun k => if k = 0 then .success ⟨[], some ⟨none, some 2, some 1, none, none⟩⟩
        else .success ⟨[], none⟩) 5).pagesFetched = 1 := by
  constructor
  · decide
  · decide

/-- Witness for the amended claim C4: both continuation tests
instantiated at a response with no metadata — no further page is
fetched in either variant. -/
theorem claim_C4_opportunity_continuation_witness :
    ((oppPaginateGo (fun _ => .success ⟨[], none⟩) (0 + 1) 0 [] []).pagesFetched > 0 + 1 ↔
      (oppHasMorePages (⟨[], none⟩ : OppPage).meta = true ∧
        ([] : List GHLOpportunity).length + (⟨[], none⟩ : OppPage).opportunities.length ≤ 10000)) ∧
    ((oppPaginateGoPlain (fun _ => .success ⟨[], none⟩) (0 + 1) 0 [] []).pagesFetched > 0 + 1 ↔
      (oppHasMorePagesPlain (⟨[], none⟩ : OppPage).meta = true ∧
        ([] : List GHLOpportunity).length + (⟨[], none⟩ : OppPage).opportunities.length ≤ 10000)) :=
  ⟨claim_C4_opportunity_continuation.1 (fun _ => .success ⟨[], none⟩) 0 0 [] [] ⟨[], none⟩ rfl,
    claim_C4_opportunity_continuation.2.1 (fun _ => .success ⟨[], none⟩) 0 0 [] [] ⟨[], none⟩ rfl⟩
